import Mathlib

/-!
Verification of the TurboTests image synthesis / extraction core
(`phase3/tools/testgen.py` and `phase3/tools/testscan.py`).

The Python code is shallowly embedded: the mutable 2D grayscale grid
(`List[List[int]]`, rectangular, 0 = black / 255 = white) becomes a
structure carrying its dimensions and a pixel function, pixel-writing
loops become pointwise functional updates, counting loops become
`List.countP` / `List.filter` over the same iteration ranges, and the
ambient effects (wall clock readings) become explicit parameters.
Machine arithmetic: Python `int(x)` is truncation toward zero
(`pytrunc`), `round(x, n)` is round-half-to-even (`pyRound`), `//` is
floor division; float arithmetic is modelled exactly over `ℚ`.
-/

namespace TurboTests

/-- Python `int(q)`: truncation toward zero. -/
def pytrunc (q : ℚ) : ℤ := if q < 0 then -(⌊-q⌋) else ⌊q⌋

/-- Round-half-to-even to an integer, the tie rule of Python `round`. -/
def roundHalfEven (q : ℚ) : ℤ :=
  if q - ⌊q⌋ < 1/2 then ⌊q⌋
  else if 1/2 < q - ⌊q⌋ then ⌊q⌋ + 1
  else if ⌊q⌋ % 2 = 0 then ⌊q⌋ else ⌊q⌋ + 1

/-- Python `round(q, n)`. -/
def pyRound (q : ℚ) (n : ℕ) : ℚ := (roundHalfEven (q * 10 ^ n) : ℚ) / 10 ^ n

/-- `testscan.py` lines 626-628, `ImageScanner._mm_to_pixels`:
`int(mm * dpi / 25.4)`. -/
def mmToPixels (mm : ℚ) (dpi : ℕ) : ℤ := pytrunc (mm * dpi / (254/10))

/-- `testgen.py` lines 36-38, `TestImageGenerator.mm_to_pixels`
(`self.dpi` is fixed to 300): `int(mm * self.dpi / 25.4)`. -/
def genMmToPixels (mm : ℚ) : ℤ := pytrunc (mm * 300 / (254/10))

/-- Integer squaring, written as the Python sources write it (`a*a`). -/
def sq (a : ℤ) : ℤ := a * a

/-- A rectangular grayscale image: the Python `List[List[int]]` grid with
`height = len(image)`, `width = len(image[0])`, embedded as its dimensions
plus the pixel map `pix row col`. -/
structure Image where
  width : ℕ
  height : ℕ
  pix : ℤ → ℤ → ℕ

/-- The offsets `(dy, dx)` visited by the nested loops
`for dy in range(-c, c+1): for dx in range(-c, c+1)` that additionally
satisfy the membership/bounds test of the loop body.  Counting loops are
embedded as cardinalities of such sets. -/
def bubbleSample (img : Image) (cx cy cr : ℤ) : Finset (ℤ × ℤ) :=
  (Finset.Icc (-cr) cr ×ˢ Finset.Icc (-cr) cr).filter (fun d =>
    sq d.2 + sq d.1 ≤ sq cr ∧ 0 ≤ cx + d.2 ∧ cx + d.2 < (img.width : ℤ) ∧
      0 ≤ cy + d.1 ∧ cy + d.1 < (img.height : ℤ))

/-- The `fill_ratio` computed by the counting loops of `detect_bubble_fill`:
`dark_count / total_count` over the sampled offsets. -/
def bubbleFillFrac (img : Image) (cx cy cr : ℤ) : ℚ :=
  (((bubbleSample img cx cy cr).filter
      (fun d => img.pix (cy + d.1) (cx + d.2) < 128)).card : ℚ) /
    ((bubbleSample img cx cy cr).card : ℚ)

/-- `testscan.py` lines 237-297, `ImageScanner.detect_bubble_fill`:
out-of-bounds centers are rejected up front; otherwise the interior disk of
radius `max(1, radius - 2)` is sampled, `fill_ratio` is the fraction of
sampled pixels darker than 128, the bubble is filled iff
`fill_ratio >= threshold`, and the confidence measures distance from the
threshold, capped at 0.99. -/
def detectBubbleFill (img : Image) (cx cy radius : ℤ) (threshold : ℚ) :
    Bool × ℚ :=
  if cx < 0 ∨ cy < 0 ∨ (img.width : ℤ) ≤ cx ∨ (img.height : ℤ) ≤ cy then
    (false, 0)
  else if (bubbleSample img cx cy (max 1 (radius - 2))).card = 0 then
    (false, 0)
  else if threshold ≤ bubbleFillFrac img cx cy (max 1 (radius - 2)) then
    (true, min (99/100) (bubbleFillFrac img cx cy (max 1 (radius - 2)) / threshold))
  else
    (false, min (99/100) (1 - bubbleFillFrac img cx cy (max 1 (radius - 2)) / threshold))

/-- Spec-side description (claim C3): the pixels `(x, y)` of the interior
disk of radius `c` around `(cx, cy)` that lie inside the image. -/
def diskPixels (img : Image) (cx cy c : ℤ) : Finset (ℤ × ℤ) :=
  (Finset.Icc (cx - c) (cx + c) ×ˢ Finset.Icc (cy - c) (cy + c)).filter
    (fun q => sq (q.1 - cx) + sq (q.2 - cy) ≤ sq c ∧ 0 ≤ q.1 ∧
      q.1 < (img.width : ℤ) ∧ 0 ≤ q.2 ∧ q.2 < (img.height : ℤ))

/-- Spec-side fill ratio of claim C3: fraction of the sampled pixels with
intensity below 128. -/
def diskFillFrac (img : Image) (cx cy c : ℤ) : ℚ :=
  (((diskPixels img cx cy c).filter (fun q => img.pix q.2 q.1 < 128)).card : ℚ) /
    ((diskPixels img cx cy c).card : ℚ)

/-- Concrete 5x5 image with a single dark pixel at its center, used as a
witness input. -/
def dotImage : Image :=
  ⟨5, 5, fun y x => if y = 2 ∧ x = 2 then 0 else 255⟩

/-- All `(a, b)` pairs of two lists, in the order of the nested loops
`for a in l1: for b in l2`. -/
def pairList : List ℤ → List ℤ → List (ℤ × ℤ)
  | [], _ => []
  | a :: as, l2 => (l2.map (fun b => (a, b))) ++ pairList as l2

/-- The annulus offsets `(dy, dx)` visited by the outer-ring loops of
`_is_dark_circle`: `radius² < dx²+dy² ≤ outer²`, restricted to in-bounds
pixels. -/
def annulusSample (img : Image) (cx cy r oR : ℤ) : Finset (ℤ × ℤ) :=
  (Finset.Icc (-oR) oR ×ˢ Finset.Icc (-oR) oR).filter (fun d =>
    sq r < sq d.2 + sq d.1 ∧ sq d.2 + sq d.1 ≤ sq oR ∧ 0 ≤ cx + d.2 ∧
      cx + d.2 < (img.width : ℤ) ∧ 0 ≤ cy + d.1 ∧ cy + d.1 < (img.height : ℤ))

/-- The `white_ratio` of `_is_dark_circle`: fraction of sampled annulus
pixels lighter than 200, with outer radius `int(radius * 1.5)`; `0` when the
annulus samples no pixel (rational division by zero is zero, matching the
source's explicit guard). -/
def annulusWhiteFrac (img : Image) (cx cy r : ℤ) : ℚ :=
  (((annulusSample img cx cy r (pytrunc ((r : ℚ) * 3 / 2))).filter
      (fun d => 200 < img.pix (cy + d.1) (cx + d.2))).card : ℚ) /
    ((annulusSample img cx cy r (pytrunc ((r : ℚ) * 3 / 2))).card : ℚ)

/-- `testscan.py` lines 168-235, `ImageScanner._is_dark_circle`: score 0 for
centers whose disk does not fit in the image or with an empty sample,
otherwise `dark_ratio * 0.7 + white_ratio * 0.3`. -/
def isDarkCircle (img : Image) (cx cy radius : ℤ) : ℚ :=
  if cx < radius ∨ cy < radius ∨ (img.width : ℤ) - radius ≤ cx ∨
      (img.height : ℤ) - radius ≤ cy then 0
  else if (bubbleSample img cx cy radius).card = 0 then 0
  else bubbleFillFrac img cx cy radius * (7/10) +
    annulusWhiteFrac img cx cy radius * (3/10)

/-- The grid offsets `range(-20, 21, 5)` searched around each expected
registration-mark position (`testscan.py` lines 126-133). -/
def searchOffsets : List ℤ := (List.range 9).map (fun i : ℕ => -20 + 5 * (i : ℤ))

/-- The best score among all candidate grid positions (spec side of claim
C5: "the best such score"). -/
def maxGridScore (img : Image) (ex ey er : ℤ) : ℚ :=
  ((pairList searchOffsets searchOffsets).map
    (fun d => isDarkCircle img (ex + d.2) (ey + d.1) er)).foldl max 0

/-- The candidate-scanning loop of `detect_registration_marks` (lines
128-142): running best match and best score, updated on strict
improvement. -/
def bestCandidate (img : Image) (ex ey er : ℤ) : Option (ℤ × ℤ) × ℚ :=
  searchOffsets.foldl (fun acc dy =>
    searchOffsets.foldl (fun acc2 dx =>
      if acc2.2 < isDarkCircle img (ex + dx) (ey + dy) er then
        (some (ex + dx, ey + dy), isDarkCircle img (ex + dx) (ey + dy) er)
      else acc2) acc) (none, 0)

/-- A registration mark as stored in the template layout. -/
structure RegMark where
  x_mm : ℚ
  y_mm : ℚ
  size_mm : ℚ

/-- One entry of the `detected_marks` list built by
`detect_registration_marks`. -/
structure MarkResult where
  expected_x : ℤ
  expected_y : ℤ
  detected : Option (ℤ × ℤ)
  confidence : ℚ

/-- Per-mark body of the loop of `detect_registration_marks` (lines
120-161): the mark is detected iff a best match exists and its score
exceeds 0.7. -/
def detectMark (img : Image) (dpi : ℕ) (m : RegMark) : MarkResult :=
  if (bestCandidate img (mmToPixels m.x_mm dpi) (mmToPixels m.y_mm dpi)
        (mmToPixels m.size_mm dpi)).1.isSome = true ∧
      7/10 < (bestCandidate img (mmToPixels m.x_mm dpi) (mmToPixels m.y_mm dpi)
        (mmToPixels m.size_mm dpi)).2 then
    ⟨mmToPixels m.x_mm dpi, mmToPixels m.y_mm dpi,
      (bestCandidate img (mmToPixels m.x_mm dpi) (mmToPixels m.y_mm dpi)
        (mmToPixels m.size_mm dpi)).1,
      (bestCandidate img (mmToPixels m.x_mm dpi) (mmToPixels m.y_mm dpi)
        (mmToPixels m.size_mm dpi)).2⟩
  else ⟨mmToPixels m.x_mm dpi, mmToPixels m.y_mm dpi, none, 0⟩

/-- `testscan.py` lines 98-166, `ImageScanner.detect_registration_marks`:
one result per expected mark; success iff at least 3 marks detected. -/
def detectRegistrationMarks (img : Image) (marks : List RegMark) (dpi : ℕ) :
    List MarkResult × Bool :=
  (marks.map (detectMark img dpi),
   decide (3 ≤ ((marks.map (detectMark img dpi)).filter
     (fun r => r.detected.isSome)).length))

/-- Spec-side set of claim C5: all pixels of the interior disk of radius
`r` around `(cx, cy)` (no bounds restriction; used when the disk fits the
image). -/
def fullDisk (cx cy r : ℤ) : Finset (ℤ × ℤ) :=
  (Finset.Icc (cx - r) (cx + r) ×ˢ Finset.Icc (cy - r) (cy + r)).filter
    (fun q => sq (q.1 - cx) + sq (q.2 - cy) ≤ sq r)

/-- Spec-side dark fraction of claim C5: fraction of interior-disk pixels
with intensity below 128. -/
def fullDiskDarkFrac (img : Image) (cx cy r : ℤ) : ℚ :=
  (((fullDisk cx cy r).filter (fun q => img.pix q.2 q.1 < 128)).card : ℚ) /
    ((fullDisk cx cy r).card : ℚ)

/-- Spec-side annulus of claim C5 in absolute pixel coordinates, with the
pixel-discretized outer radius `oR` and out-of-bounds pixels not sampled. -/
def annulusPixels (img : Image) (cx cy r oR : ℤ) : Finset (ℤ × ℤ) :=
  (Finset.Icc (cx - oR) (cx + oR) ×ˢ Finset.Icc (cy - oR) (cy + oR)).filter
    (fun q => sq r < sq (q.1 - cx) + sq (q.2 - cy) ∧
      sq (q.1 - cx) + sq (q.2 - cy) ≤ sq oR ∧ 0 ≤ q.1 ∧
      q.1 < (img.width : ℤ) ∧ 0 ≤ q.2 ∧ q.2 < (img.height : ℤ))

/-- Spec-side white fraction over the pixel-discretized annulus. -/
def annulusWhitePixFrac (img : Image) (cx cy r : ℤ) : ℚ :=
  (((annulusPixels img cx cy r (pytrunc ((r : ℚ) * 3 / 2))).filter
      (fun q => 200 < img.pix q.2 q.1)).card : ℚ) /
    ((annulusPixels img cx cy r (pytrunc ((r : ℚ) * 3 / 2))).card : ℚ)

/-- The annulus exactly as claim C5 words it: outer radius `1.5 × r`
without pixel discretization (in-bounds pixels only, per the out-of-bounds
reads invariant).  `d² ≤ (1.5 r)²` is written integrally as
`4 d² ≤ 9 r²`. -/
def annulusPixelsExact (img : Image) (cx cy r : ℤ) : Finset (ℤ × ℤ) :=
  (Finset.Icc (cx - 2*r) (cx + 2*r) ×ˢ Finset.Icc (cy - 2*r) (cy + 2*r)).filter
    (fun q => sq r < sq (q.1 - cx) + sq (q.2 - cy) ∧
      4 * (sq (q.1 - cx) + sq (q.2 - cy)) ≤ 9 * sq r ∧
      0 ≤ q.1 ∧ q.1 < (img.width : ℤ) ∧ 0 ≤ q.2 ∧ q.2 < (img.height : ℤ))

/-- The per-candidate score exactly as claim C5 words it:
`0.7 × dark fraction + 0.3 × white fraction` with the exact `1.5r`
annulus and no border guard. -/
def claimCandidateScore (img : Image) (cx cy r : ℤ) : ℚ :=
  (7/10) * diskFillFrac img cx cy r +
    (3/10) * ((((annulusPixelsExact img cx cy r).filter
        (fun q => 200 < img.pix q.2 q.1)).card : ℚ) /
      ((annulusPixelsExact img cx cy r).card : ℚ))

/-- Concrete 5x5 all-dark image, a counterexample input. -/
def allDark5 : Image := ⟨5, 5, fun _ _ => 0⟩

/-- A circular answer field of a choice-type question (layout key
`answer_fields`); `radius_mm` mirrors `field.get("radius_mm", 3)`. -/
structure AnswerField where
  label : String
  x_mm : ℚ
  y_mm : ℚ
  radius_mm : Option ℚ
  field_type : String
deriving DecidableEq

/-- The rectangular OCR region of a free-text question. -/
structure OcrRegion where
  x_mm : ℚ
  y_mm : ℚ
  width_mm : ℚ
  height_mm : ℚ
deriving DecidableEq

/-- One record of the template layout's `questions` sequence.  `qtype` is
the JSON key `type`; `answer_fields` / `ocr_region` are `Option`s because
the Python code tests key presence (`"answer_fields" in q_layout`);
`question_number` mirrors `q_layout.get("question_number", 0)`. -/
structure QuestionLayout where
  question_id : String
  qtype : String
  question_number : Option ℕ
  answer_fields : Option (List AnswerField)
  ocr_region : Option OcrRegion

/-- `page_info` of the template layout (only `dpi` is consulted by the
scanner). -/
structure PageInfo where
  dpi : ℕ

/-- The template layout as consumed by `extract_answers` and
`generate_test_image`. -/
structure TemplateLayout where
  page_info : PageInfo
  registration_marks : List RegMark
  questions : List QuestionLayout

/-- The call `detect_bubble_fill(image, fx, fy, radius)` made for an answer
field at `testscan.py` lines 336-343 (default threshold 0.3, radius default
3 mm). -/
def fieldDetect (img : Image) (dpi : ℕ) (f : AnswerField) : Bool × ℚ :=
  detectBubbleFill img (mmToPixels f.x_mm dpi) (mmToPixels f.y_mm dpi)
    (mmToPixels (f.radius_mm.getD 3) dpi) (3/10)

/-- Loop body of the bubble-detection pass over a question's answer fields
(`testscan.py` lines 336-353): state is
`(extracted_answer, max_confidence, filled_bubbles)`. -/
def choiceStep (img : Image) (dpi : ℕ) :
    Option String × ℚ × List (String × ℚ) → AnswerField →
      Option String × ℚ × List (String × ℚ)
  | (e, m, fb), f =>
    if (fieldDetect img dpi f).1 = true then
      if m < (fieldDetect img dpi f).2 then
        (some f.label, (fieldDetect img dpi f).2,
          fb ++ [(f.label, (fieldDetect img dpi f).2)])
      else (e, m, fb ++ [(f.label, (fieldDetect img dpi f).2)])
    else (e, m, fb)

/-- The whole bubble-detection pass, starting from
`extracted_answer = None`, `max_confidence = 0.0`, `filled_bubbles = []`. -/
def choiceFold (img : Image) (dpi : ℕ) (fields : List AnswerField) :
    Option String × ℚ × List (String × ℚ) :=
  fields.foldl (choiceStep img dpi) (none, 0, [])

/-- Spec-side list of claim C4: the answer fields judged filled, with their
confidences, in field order. -/
def filledFields (img : Image) (dpi : ℕ) (fields : List AnswerField) :
    List (String × ℚ) :=
  fields.filterMap (fun f =>
    if (fieldDetect img dpi f).1 = true then
      some (f.label, (fieldDetect img dpi f).2)
    else none)

/-- Highest confidence among a list of filled bubbles (0 for none). -/
def maxConfOf (l : List (String × ℚ)) : ℚ := (l.map Prod.snd).foldl max 0

/-- The per-question outcome of the choice branch of `extract_answers`
(`testscan.py` lines 330-374): extracted label, rounded confidence (halved
on multiple fills, zero on none) and flags. -/
def extractChoice (img : Image) (dpi : ℕ) (fields : List AnswerField) :
    Option String × ℚ × List String :=
  if 1 < (choiceFold img dpi fields).2.2.length then
    ((choiceFold img dpi fields).1,
     pyRound ((choiceFold img dpi fields).2.1 * (1/2)) 3,
     ["multiple_bubbles_filled"])
  else if (choiceFold img dpi fields).2.2.length = 0 then
    ((choiceFold img dpi fields).1, pyRound 0 3, ["no_bubble_filled"])
  else
    ((choiceFold img dpi fields).1, pyRound (choiceFold img dpi fields).2.1 3, [])

/-- The pixels visited by the OCR-region counting loops (`testscan.py`
lines 390-395), as `(y, x)` pairs: rows `[oy, min(oy+oh, height))`,
columns `[ox, min(ox+ow, width))`, restricted by the in-bounds test of the
loop body. -/
def ocrSample (img : Image) (ox oy ow oh : ℤ) : Finset (ℤ × ℤ) :=
  (Finset.Ico oy (min (oy + oh) (img.height : ℤ)) ×ˢ
      Finset.Ico ox (min (ox + ow) (img.width : ℤ))).filter
    (fun p => 0 ≤ p.1 ∧ p.1 < (img.height : ℤ) ∧ 0 ≤ p.2 ∧
      p.2 < (img.width : ℤ))

/-- Ink density of an OCR region: fraction of sampled pixels darker than
200 (0 when nothing is sampled). -/
def ocrDensity (img : Image) (ox oy ow oh : ℤ) : ℚ :=
  (((ocrSample img ox oy ow oh).filter (fun p => img.pix p.1 p.2 < 200)).card : ℚ) /
    ((ocrSample img ox oy ow oh).card : ℚ)

/-- The OCR-simulation branch of `extract_answers` (`testscan.py` lines
378-415): placeholder text, confidence and flags from the ink density. -/
def extractOcr (img : Image) (dpi : ℕ) (ocr : OcrRegion) : String × ℚ × List String :=
  if 1/20 < ocrDensity img (mmToPixels ocr.x_mm dpi) (mmToPixels ocr.y_mm dpi)
      (mmToPixels ocr.width_mm dpi) (mmToPixels ocr.height_mm dpi) then
    ("[OCR text detected]",
     min (17/20) (ocrDensity img (mmToPixels ocr.x_mm dpi) (mmToPixels ocr.y_mm dpi)
       (mmToPixels ocr.width_mm dpi) (mmToPixels ocr.height_mm dpi) * 5),
     ["requires_manual_review"])
  else ("", 9/10, [])

/-- One entry of the `answers` sequence of a scan result. -/
structure AnswerRecord where
  question_id : String
  question_number : ℕ
  question_type : String
  extracted_answer : Option String
  confidence : ℚ
  extraction_method : String
  flags : List String
deriving DecidableEq

/-- Body of the per-question loop of `extract_answers` (`testscan.py` lines
325-417): a record is appended only for choice-type questions carrying
`answer_fields` and free-text questions carrying `ocr_region`. -/
def answerRecordFor (img : Image) (dpi : ℕ) (q : QuestionLayout) :
    Option AnswerRecord :=
  if (q.qtype = "multiple_choice" ∨ q.qtype = "true_false") ∧
      q.answer_fields.isSome = true then
    some ⟨q.question_id, q.question_number.getD 0, q.qtype,
      (extractChoice img dpi (q.answer_fields.getD [])).1,
      (extractChoice img dpi (q.answer_fields.getD [])).2.1,
      "bubble_detection",
      (extractChoice img dpi (q.answer_fields.getD [])).2.2⟩
  else if (q.qtype = "short_answer" ∨ q.qtype = "essay") ∧
      q.ocr_region.isSome = true then
    some ⟨q.question_id, q.question_number.getD 0, q.qtype,
      some (extractOcr img dpi (q.ocr_region.getD ⟨0, 0, 0, 0⟩)).1,
      pyRound (extractOcr img dpi (q.ocr_region.getD ⟨0, 0, 0, 0⟩)).2.1 3,
      "ocr_simulation",
      (extractOcr img dpi (q.ocr_region.getD ⟨0, 0, 0, 0⟩)).2.2⟩
  else none

/-- The `rectification` part of the scan metadata. -/
structure Rectification where
  markers_detected : ℕ
  markers_expected : ℕ
  rectification_applied : Bool
deriving DecidableEq

/-- The `quality_metrics` part of the scan metadata. -/
structure QualityMetrics where
  overall_confidence : ℚ
  low_confidence_count : ℕ
  flags_count : ℕ
deriving DecidableEq

/-- `testscan.py` lines 299-433, `ImageScanner.extract_answers`: the
answers list (one optional record per layout question) plus rectification
and quality metadata. -/
def extractAnswers (img : Image) (layout : TemplateLayout) :
    List AnswerRecord × Rectification × QualityMetrics :=
  (layout.questions.filterMap (answerRecordFor img layout.page_info.dpi),
   ⟨((detectRegistrationMarks img layout.registration_marks
        layout.page_info.dpi).1.filter (fun r => r.detected.isSome)).length,
    layout.registration_marks.length,
    (detectRegistrationMarks img layout.registration_marks
      layout.page_info.dpi).2⟩,
   ⟨(if (layout.questions.filterMap (answerRecordFor img layout.page_info.dpi)).length = 0
       then 0
     else pyRound
       ((((layout.questions.filterMap (answerRecordFor img layout.page_info.dpi)).map
           (fun a => a.confidence)).sum) /
         (((layout.questions.filterMap (answerRecordFor img layout.page_info.dpi)).length : ℚ))) 3),
    ((layout.questions.filterMap (answerRecordFor img layout.page_info.dpi)).filter
      (fun a => a.confidence < 7/10)).length,
    (((layout.questions.filterMap (answerRecordFor img layout.page_info.dpi)).map
      (fun a => a.flags.length)).sum)⟩)

/-- Well-formedness of a question layout record per the spec's data model:
the type tag is one of the four supported ones and the matching region key
is present. -/
def WFQuestion (q : QuestionLayout) : Prop :=
  ((q.qtype = "multiple_choice" ∨ q.qtype = "true_false") ∧
    q.answer_fields.isSome = true) ∨
  ((q.qtype = "short_answer" ∨ q.qtype = "essay") ∧ q.ocr_region.isSome = true)

instance (q : QuestionLayout) : Decidable (WFQuestion q) := by
  unfold WFQuestion; infer_instance

/-- All-white 12x12 image, a witness input. -/
def whiteImage12 : Image := ⟨12, 12, fun _ _ => 255⟩

/-- A concrete answer field, a witness input. -/
def witField : AnswerField := ⟨"A", 1, 1, some (1/2), "circle"⟩

/-- Canvas dimensions of a `TestImageGenerator` (constructor arguments
`width`, `height`; `self.dpi` is fixed to 300). -/
structure Gen where
  width : ℕ
  height : ℕ

/-- A canvas under construction: the pixel map `row col ↦ intensity`.
In-place writes of the Python loops become pointwise functional updates. -/
abbrev PixFun := ℤ → ℤ → ℕ

/-- `testgen.py` lines 44-52, `TestImageGenerator.draw_circle`: a pixel is
written iff it lies in the disk (`dx²+dy² ≤ r²`; the loop window
`|dx|, |dy| ≤ r` additionally requires `0 ≤ r`), inside the canvas, and —
for outlines — on the ring `dx²+dy² ≥ (r-2)²`. -/
def drawCircleG (g : Gen) (img : PixFun) (cx cy r : ℤ) (filled : Bool)
    (v : ℕ) : PixFun :=
  fun py px =>
    if 0 ≤ r ∧ sq (px - cx) + sq (py - cy) ≤ sq r ∧
        0 ≤ px ∧ px < (g.width : ℤ) ∧ 0 ≤ py ∧ py < (g.height : ℤ) ∧
        (filled = true ∨ sq (r - 2) ≤ sq (px - cx) + sq (py - cy)) then v
    else img py px

/-- `testgen.py` lines 54-72, `draw_rectangle` (outline): top and bottom
rows over `[x, x+w)`, left and right columns over `[y, y+h)`, each write
clipped to the canvas. -/
def drawRectG (g : Gen) (img : PixFun) (x y w h : ℤ) (v : ℕ) : PixFun :=
  fun py px =>
    if ((py = y ∨ py = y + h) ∧ x ≤ px ∧ px < x + w ∧
          0 ≤ px ∧ px < (g.width : ℤ) ∧ 0 ≤ py ∧ py < (g.height : ℤ)) ∨
       ((px = x ∨ px = x + w) ∧ y ≤ py ∧ py < y + h ∧
          0 ≤ px ∧ px < (g.width : ℤ) ∧ 0 ≤ py ∧ py < (g.height : ℤ))
    then v else img py px

/-- `testgen.py` lines 74-80, `fill_rectangle`. -/
def fillRectG (g : Gen) (img : PixFun) (x y w h : ℤ) (v : ℕ) : PixFun :=
  fun py px =>
    if x ≤ px ∧ px < x + w ∧ y ≤ py ∧ py < y + h ∧
        0 ≤ px ∧ px < (g.width : ℤ) ∧ 0 ≤ py ∧ py < (g.height : ℤ) then v
    else img py px

/-- Per-field drawing of `generate_test_image` (lines 126-142): outline
every circle field, and fill (radius `r-1`, value 50) the field matching
the student's answer for this question. -/
def drawField (g : Gen) (answers : List (String × String)) (qid : String)
    (im : PixFun) (f : AnswerField) : PixFun :=
  if f.field_type = "circle" then
    if answers.lookup qid = some f.label then
      drawCircleG g (drawCircleG g im (genMmToPixels f.x_mm) (genMmToPixels f.y_mm)
          (genMmToPixels (f.radius_mm.getD 3)) false 0)
        (genMmToPixels f.x_mm) (genMmToPixels f.y_mm)
        (genMmToPixels (f.radius_mm.getD 3) - 1) true 50
    else
      drawCircleG g im (genMmToPixels f.x_mm) (genMmToPixels f.y_mm)
        (genMmToPixels (f.radius_mm.getD 3)) false 0
  else im

/-- One step of the flattened field-drawing pass: draw one
`(question_id, field)` pair. -/
def fieldStep (g : Gen) (CA : List (String × String)) (im : PixFun)
    (p : String × AnswerField) : PixFun :=
  drawField g CA p.1 im p.2

/-- The five handwriting scribbles stamped into an answered OCR region
(lines 154-159). -/
def drawScribbles (g : Gen) (im : PixFun) (ox oy oh : ℤ) : PixFun :=
  (List.range 5).foldl (fun im2 i =>
    fillRectG g im2 (ox + 5 + (i : ℤ) * 10) (oy + Int.fdiv oh 2) 8 2 80) im

/-- Per-question drawing of `generate_test_image` (lines 115-159): fields
branch when `answer_fields` is present, OCR branch when `ocr_region` is. -/
def drawQuestion (g : Gen) (answers : List (String × String)) (im : PixFun)
    (q : QuestionLayout) : PixFun :=
  match q.answer_fields with
  | some fs => fs.foldl (drawField g answers q.question_id) im
  | none =>
    match q.ocr_region with
    | some ocr =>
      if (answers.lookup q.question_id).isSome = true then
        drawScribbles g
          (drawRectG g im (genMmToPixels ocr.x_mm) (genMmToPixels ocr.y_mm)
            (genMmToPixels ocr.width_mm) (genMmToPixels ocr.height_mm) 0)
          (genMmToPixels ocr.x_mm) (genMmToPixels ocr.y_mm)
          (genMmToPixels ocr.height_mm)
      else
        drawRectG g im (genMmToPixels ocr.x_mm) (genMmToPixels ocr.y_mm)
          (genMmToPixels ocr.width_mm) (genMmToPixels ocr.height_mm) 0
    | none => im

/-- The registration-mark pass of `generate_test_image` (lines 107-112):
every mark drawn as a filled black disk. -/
def drawMarks (g : Gen) (marks : List RegMark) (im : PixFun) : PixFun :=
  marks.foldl (fun im2 m => drawCircleG g im2 (genMmToPixels m.x_mm)
    (genMmToPixels m.y_mm) (genMmToPixels m.size_mm) true 0) im

/-- `testgen.py` lines 82-165, `TestImageGenerator.generate_test_image`
with `add_noise=False`: white canvas, registration marks, then per-question
answer drawing. -/
def generateTestImage (g : Gen) (layout : TemplateLayout)
    (answers : List (String × String)) : Image :=
  ⟨g.width, g.height,
   layout.questions.foldl (drawQuestion g answers)
     (drawMarks g layout.registration_marks (fun _ _ => 255))⟩

/-- `testgen.py` lines 256-283, `_apply_skew`: destination row `y` sources
from column `x - int(skew * (y - height/2))` of the same row when in
bounds, else stays white. -/
def applySkew (img : Image) (skew : ℚ) : Image :=
  ⟨img.width, img.height, fun y x =>
    if 0 ≤ y ∧ y < (img.height : ℤ) ∧ 0 ≤ x ∧ x < (img.width : ℤ) then
      (if 0 ≤ x - pytrunc (skew * ((y : ℚ) - (img.height : ℚ) / 2)) ∧
          x - pytrunc (skew * ((y : ℚ) - (img.height : ℚ) / 2)) < (img.width : ℤ) then
        img.pix y (x - pytrunc (skew * ((y : ℚ) - (img.height : ℚ) / 2)))
      else 255)
    else 255⟩

/-- The skew stage of `apply_distortions` (`testgen.py` lines 198-200):
`_apply_skew` runs only for `|skew| > 0.001`. -/
def applySkewStage (img : Image) (skew : ℚ) : Image :=
  if 1/1000 < |skew| then applySkew img skew else img

/-- The destination pixel exactly as claim C8 words it, with `round`
instead of the code's truncation. -/
def claimSkewPix (img : Image) (k : ℚ) (y x : ℤ) : ℕ :=
  if 0 ≤ x - round (k * ((y : ℚ) - (img.height : ℚ) / 2)) ∧
      x - round (k * ((y : ℚ) - (img.height : ℚ) / 2)) < (img.width : ℤ) then
    img.pix y (x - round (k * ((y : ℚ) - (img.height : ℚ) / 2)))
  else 255

/-- 2x1 image with a black left pixel, a counterexample input. -/
def skewTiny : Image := ⟨2, 1, fun y x => if y = 0 ∧ x = 0 then 0 else 255⟩

/-- The sparse on-disk image format: width, height and the non-white
`(x, y, intensity)` triples. -/
structure SparseImage where
  width : ℕ
  height : ℕ
  pixels : List (ℕ × ℕ × ℕ)

/-- `testgen.py` lines 301-317, `save_compact`: row-major enumeration of
the pixels with intensity below 255. -/
def saveCompact (img : Image) : SparseImage :=
  ⟨img.width, img.height,
   (List.range img.height).flatMap (fun (y : ℕ) =>
     (List.range img.width).filterMap (fun (x : ℕ) =>
       if img.pix (y : ℤ) (x : ℤ) < 255 then
         some ((x, y, img.pix (y : ℤ) (x : ℤ)) : ℕ × ℕ × ℕ)
       else none))⟩

/-- Application of the stored triples to a base canvas (the write loop of
`load_image`, `testscan.py` lines 59-61). -/
def applyTriplesF (pf : PixFun) (ps : List (ℕ × ℕ × ℕ)) : PixFun :=
  ps.foldl (fun f t => fun py px =>
    if py = (t.2.1 : ℤ) ∧ px = (t.1 : ℤ) then t.2.2 else f py px) pf

/-- `testscan.py` lines 47-63, `load_image` (sparse JSON branch): a fully
white canvas of the stored size, then the stored non-white pixels. -/
def loadSparse (d : SparseImage) : Image :=
  ⟨d.width, d.height, applyTriplesF (fun _ _ => 255) d.pixels⟩

/-- Number of non-white pixels of the grid (for the claim's `<5%`
hypothesis). -/
def nonWhiteCount (img : Image) : ℕ :=
  ((Finset.range img.height ×ˢ Finset.range img.width).filter
    (fun p => img.pix p.1 p.2 < 255)).card

/-- 5x5 image with one dark pixel (4% non-white), a witness input. -/
def c7img : Image := ⟨5, 5, fun y x => if y = 1 ∧ x = 2 then 0 else 255⟩

/-- The `scan_metadata` object of a scan result. -/
structure ScanMetadata where
  scan_timestamp : String
  image_source : String
  scanner_version : String
  processing_time_ms : ℚ
deriving DecidableEq

/-- The `identification` object of a scan result. -/
structure Identification where
  version_id : String
  student_id : String
  version_conf : ℚ
  student_conf : ℚ
deriving DecidableEq

/-- A scan result as assembled by `scan_image`. -/
structure ScanResult where
  version : String
  scan_metadata : ScanMetadata
  identification : Identification
  rectification : Rectification
  answers : List AnswerRecord
  quality_metrics : QualityMetrics
deriving DecidableEq

/-- `testscan.py` lines 435-486, `ImageScanner.scan_image` on an already
loaded image.  The two wall-clock reads — `datetime.utcnow().isoformat()`
and the elapsed `time.time()` milliseconds — are ambient effects and enter
the embedding as the explicit parameters `timestamp` and `elapsedMs`. -/
def scanImage (img : Image) (imagePath : String) (layout : TemplateLayout)
    (timestamp : String) (elapsedMs : ℚ) : ScanResult :=
  ⟨"1.0.0",
   ⟨timestamp ++ "Z", imagePath, "testscan-1.0.0", pyRound elapsedMs 2⟩,
   ⟨"detected", "detected", 0, 0⟩,
   (extractAnswers img layout).2.1,
   (extractAnswers img layout).1,
   (extractAnswers img layout).2.2⟩

/-- A layout with no marks and no questions, a counterexample input. -/
def emptyLayout : TemplateLayout := ⟨⟨300⟩, [], []⟩

/-- Pixel x-coordinate of an answer field under the generator's fixed
300 dpi (`mm_to_pixels(field["x_mm"])`; identical to the scanner's
conversion at dpi 300). -/
def fpx (f : AnswerField) : ℤ := genMmToPixels f.x_mm

/-- Pixel y-coordinate of an answer field. -/
def fpy (f : AnswerField) : ℤ := genMmToPixels f.y_mm

/-- Pixel radius of an answer field (default 3 mm). -/
def fpr (f : AnswerField) : ℤ := genMmToPixels (f.radius_mm.getD 3)

/-- The offsets of the interior disk of radius `m` (the scanner's sample
set once every sampled pixel is in bounds). -/
def diskOffsets (m : ℤ) : Finset (ℤ × ℤ) :=
  (Finset.Icc (-m) m ×ˢ Finset.Icc (-m) m).filter
    (fun d => sq d.2 + sq d.1 ≤ sq m)

/-- Radius sanity for the round trip: on the sample disk of radius `r - 2`,
the boundary lattice points (the only dark pixels of an unfilled outlined
bubble) make up less than the 0.3 fill threshold. -/
def ringOK (r : ℤ) : Prop :=
  10 * ((diskOffsets (r - 2)).filter
    (fun d => sq d.2 + sq d.1 = sq (r - 2))).card <
  3 * (diskOffsets (r - 2)).card

instance (r : ℤ) : Decidable (ringOK r) := by
  unfold ringOK; infer_instance

/-- Geometric hypotheses of the amended claim C1 for one field: a circle
field of pixel radius at least 3 whose disk lies inside the canvas with
its radius as margin, satisfying `ringOK`. -/
def fieldGeomOK (g : Gen) (f : AnswerField) : Prop :=
  f.field_type = "circle" ∧ 3 ≤ fpr f ∧
  fpr f ≤ fpx f ∧ fpx f + fpr f < (g.width : ℤ) ∧
  fpr f ≤ fpy f ∧ fpy f + fpr f < (g.height : ℤ) ∧
  ringOK (fpr f)

/-- All `(question_id, field)` pairs of a layout, in drawing order. -/
def allFieldPairs (layout : TemplateLayout) : List (String × AnswerField) :=
  layout.questions.flatMap (fun q =>
    (q.answer_fields.getD []).map (fun f => (q.question_id, f)))

/-- Two fields' bubble disks are separated (center distance beyond the sum
of the radii). -/
def FieldsDisjoint (a b : String × AnswerField) : Prop :=
  sq (fpx a.2 - fpx b.2) + sq (fpy a.2 - fpy b.2) > sq (fpr a.2 + fpr b.2)

/-- A registration-mark disk is separated from a field's bubble disk. -/
def MarkFieldDisjoint (m : RegMark) (p : String × AnswerField) : Prop :=
  sq (fpx p.2 - genMmToPixels m.x_mm) + sq (fpy p.2 - genMmToPixels m.y_mm) >
    sq (fpr p.2 + genMmToPixels m.size_mm)

/-- The answer record the round trip is expected to produce for a
question. -/
def expectedRecord (CA : List (String × String)) (q : QuestionLayout) :
    AnswerRecord :=
  ⟨q.question_id, q.question_number.getD 0, q.qtype,
   CA.lookup q.question_id, 99/100, "bubble_detection", []⟩

/-- 40x40 generator canvas, a witness input. -/
def c1gen : Gen := ⟨40, 40⟩

/-- Second answer field of the witness layout. -/
def c1fieldB : AnswerField := ⟨"B", 5/2, 1, some (1/2), "circle"⟩

/-- One-question two-bubble layout, a witness input for the round trip. -/
def c1layout : TemplateLayout :=
  ⟨⟨300⟩, [], [⟨"q1", "multiple_choice", some 1, some [witField, c1fieldB], none⟩]⟩

/-- The correct-answer map of the witness round trip. -/
def c1answers : List (String × String) := [("q1", "A")]

/-- Layout whose single answer field lies far outside the canvas, a
counterexample input for claim C1 as stated. -/
def c1cexLayout : TemplateLayout :=
  ⟨⟨300⟩, [],
   [⟨"q1", "multiple_choice", some 1,
     some [⟨"A", 100, 1, some (1/2), "circle"⟩], none⟩]⟩

/-- Concrete two-question layout (one multiple-choice, one short-answer),
a witness input. -/
def witLayout9 : TemplateLayout :=
  ⟨⟨300⟩, [],
   [⟨"q1", "multiple_choice", some 1, some [witField], none⟩,
    ⟨"q2", "short_answer", some 2, none, some ⟨1, 2, 3, 1⟩⟩]⟩

theorem genMmToPixels_eq (mm : ℚ) : genMmToPixels mm = mmToPixels mm 300 := rfl

lemma pytrunc_of_nonneg {q : ℚ} (h : 0 ≤ q) : pytrunc q = ⌊q⌋ := by
  unfold pytrunc
  rw [if_neg (not_lt.mpr h)]

/-- Claim C6 -- For every mm value `m ≥ 0` and every dpi `d > 0`, the
millimeter-to-pixel conversion used by both synthesis and extraction equals
`⌊m * d / 25.4⌋`; in particular `mm_to_px (25.4, 300) = 300` and
`mm_to_px (10, 300) = 118`.  (For negative `m` the code truncates toward
zero instead of flooring, see the counterexample.) -/
theorem c6_mm_to_px (m : ℚ) (hm : 0 ≤ m) (d : ℕ) (hd : 0 < d) :
    mmToPixels m d = ⌊m * d / (254/10)⌋ ∧
    genMmToPixels m = ⌊m * 300 / (254/10)⌋ ∧
    mmToPixels (254/10) 300 = 300 ∧ mmToPixels 10 300 = 118 := by
  have hq : ∀ k : ℕ, (0:ℚ) ≤ m * k / (254/10) := by
    intro k
    apply div_nonneg (mul_nonneg hm (by positivity)) (by norm_num)
  refine ⟨?_, ?_, ?_, ?_⟩
  · exact pytrunc_of_nonneg (hq d)
  · exact pytrunc_of_nonneg (hq 300)
  · norm_num [mmToPixels, pytrunc]
  · norm_num [mmToPixels, pytrunc]

theorem c6_mm_to_px_witness :
    (0:ℚ) ≤ 10 ∧ 0 < 300 ∧ mmToPixels 10 300 = ⌊(10:ℚ) * 300 / (254/10)⌋ :=
  ⟨by norm_num, by norm_num, (c6_mm_to_px 10 (by norm_num) 300 (by norm_num)).1⟩

/-- Counterexample to claim C6 as stated: at `m = -1`, `d = 300` the code
computes `int(-300/25.4) = -11`, not `⌊-300/25.4⌋ = -12`. -/
theorem c6_mm_to_px_cex :
    mmToPixels (-1) 300 = -11 ∧ ⌊(-1 : ℚ) * 300 / (254/10)⌋ = -12 := by
  constructor <;> norm_num [mmToPixels, pytrunc]

lemma mem_bubbleSample {img : Image} {cx cy cr : ℤ} {d : ℤ × ℤ} :
    d ∈ bubbleSample img cx cy cr ↔
      (-cr ≤ d.1 ∧ d.1 ≤ cr) ∧ (-cr ≤ d.2 ∧ d.2 ≤ cr) ∧
      sq d.2 + sq d.1 ≤ sq cr ∧ 0 ≤ cx + d.2 ∧ cx + d.2 < (img.width : ℤ) ∧
      0 ≤ cy + d.1 ∧ cy + d.1 < (img.height : ℤ) := by
  unfold bubbleSample
  simp only [Finset.mem_filter, Finset.mem_product, Finset.mem_Icc]
  tauto

lemma mem_diskPixels {img : Image} {cx cy c : ℤ} {q : ℤ × ℤ} :
    q ∈ diskPixels img cx cy c ↔
      (cx - c ≤ q.1 ∧ q.1 ≤ cx + c) ∧ (cy - c ≤ q.2 ∧ q.2 ≤ cy + c) ∧
      sq (q.1 - cx) + sq (q.2 - cy) ≤ sq c ∧ 0 ≤ q.1 ∧
      q.1 < (img.width : ℤ) ∧ 0 ≤ q.2 ∧ q.2 < (img.height : ℤ) := by
  unfold diskPixels
  simp only [Finset.mem_filter, Finset.mem_product, Finset.mem_Icc]
  tauto

lemma sq_add_sq_le_bounds {a b c : ℤ} (h : sq a + sq b ≤ sq c) (hc : 0 ≤ c) :
    (-c ≤ a ∧ a ≤ c) ∧ (-c ≤ b ∧ b ≤ c) := by
  unfold sq at h
  refine ⟨⟨?_, ?_⟩, ⟨?_, ?_⟩⟩ <;>
    nlinarith [mul_self_nonneg a, mul_self_nonneg b, mul_self_nonneg (a + c),
      mul_self_nonneg (a - c), mul_self_nonneg (b + c), mul_self_nonneg (b - c)]

lemma mem_diskPixels_iff {img : Image} {cx cy c : ℤ} (hc : 0 ≤ c) (x y : ℤ) :
    (x, y) ∈ diskPixels img cx cy c ↔
      (sq (x - cx) + sq (y - cy) ≤ sq c ∧ 0 ≤ x ∧ x < (img.width : ℤ) ∧
        0 ≤ y ∧ y < (img.height : ℤ)) := by
  rw [mem_diskPixels]
  constructor
  · rintro ⟨-, -, h⟩; exact h
  · rintro ⟨hd, hb⟩
    obtain ⟨⟨a1, a2⟩, ⟨b1, b2⟩⟩ := sq_add_sq_le_bounds hd hc
    exact ⟨⟨by omega, by omega⟩, ⟨by omega, by omega⟩, hd, hb⟩

lemma bubbleSample_filter_card (img : Image) (cx cy cr : ℤ)
    (pr : ℤ × ℤ → Prop) [DecidablePred pr] :
    ((bubbleSample img cx cy cr).filter (fun d => pr (cx + d.2, cy + d.1))).card =
      ((diskPixels img cx cy cr).filter pr).card := by
  apply Finset.card_bij (fun d _ => ((cx + d.2 : ℤ), (cy + d.1 : ℤ)))
  · rintro ⟨dy, dx⟩ hd
    rw [Finset.mem_filter] at hd ⊢
    obtain ⟨hmem, hpr⟩ := hd
    rw [mem_bubbleSample] at hmem
    refine ⟨mem_diskPixels.mpr ?_, hpr⟩
    simp only at hmem ⊢
    obtain ⟨⟨a1, a2⟩, ⟨b1, b2⟩, hsq, hb⟩ := hmem
    refine ⟨⟨by omega, by omega⟩, ⟨by omega, by omega⟩, ?_, hb⟩
    have e1 : cx + dx - cx = dx := by ring
    have e2 : cy + dy - cy = dy := by ring
    rw [e1, e2]; exact hsq
  · rintro ⟨dy, dx⟩ - ⟨dy', dx'⟩ - heq
    simp only [Prod.mk.injEq] at heq
    have : dx = dx' := by omega
    have : dy = dy' := by omega
    simp_all
  · rintro ⟨x, y⟩ hq
    rw [Finset.mem_filter] at hq
    obtain ⟨hmem, hpr⟩ := hq
    rw [mem_diskPixels] at hmem
    simp only at hmem
    obtain ⟨⟨a1, a2⟩, ⟨b1, b2⟩, hsq, hb⟩ := hmem
    refine ⟨(y - cy, x - cx), ?_, by simp⟩
    rw [Finset.mem_filter]
    constructor
    · rw [mem_bubbleSample]
      simp only
      refine ⟨⟨by omega, by omega⟩, ⟨by omega, by omega⟩, ?_, by omega, by omega, by omega, by omega⟩
      have e1 : cx + (x - cx) = x := by ring
      exact hsq
    · have e1 : cx + (x - cx) = x := by ring
      have e2 : cy + (y - cy) = y := by ring
      rw [e1, e2]; exact hpr

lemma bubbleSample_card (img : Image) (cx cy cr : ℤ) :
    (bubbleSample img cx cy cr).card = (diskPixels img cx cy cr).card := by
  have h := bubbleSample_filter_card img cx cy cr (fun _ => True)
  simpa using h

lemma bubbleFillFrac_eq (img : Image) (cx cy cr : ℤ) :
    bubbleFillFrac img cx cy cr = diskFillFrac img cx cy cr := by
  unfold bubbleFillFrac diskFillFrac
  rw [bubbleSample_card,
    bubbleSample_filter_card img cx cy cr (fun q => img.pix q.2 q.1 < 128)]

lemma bubbleSample_card_ne_zero {img : Image} {cx cy : ℤ} (cr : ℤ)
    (hcr : 0 ≤ cr) (h1 : 0 ≤ cx) (h2 : cx < (img.width : ℤ))
    (h3 : 0 ≤ cy) (h4 : cy < (img.height : ℤ)) :
    (bubbleSample img cx cy cr).card ≠ 0 := by
  have hmem : ((0 : ℤ), (0 : ℤ)) ∈ bubbleSample img cx cy cr := by
    rw [mem_bubbleSample]
    refine ⟨⟨by omega, by omega⟩, ⟨by omega, by omega⟩, ?_, by omega, by omega, by omega, by omega⟩
    simp only [sq]
    nlinarith
  intro hc
  rw [Finset.card_eq_zero] at hc
  rw [hc] at hmem
  exact absurd hmem (Finset.not_mem_empty _)

/-- Claim C3 -- For an in-bounds bubble center, `detect_bubble_fill` samples
exactly the in-bounds pixels of the interior disk of radius
`max(1, radius - 2)`, computes the fill ratio as the fraction of sampled
pixels darker than 128, reports filled iff `fill_ratio ≥ threshold`, with
confidence `min(0.99, fill_ratio/threshold)` when filled and
`min(0.99, 1 - fill_ratio/threshold)` otherwise. -/
theorem c3_bubble_classifier (img : Image) (cx cy radius : ℤ) (threshold : ℚ)
    (h1 : 0 ≤ cx) (h2 : cx < (img.width : ℤ))
    (h3 : 0 ≤ cy) (h4 : cy < (img.height : ℤ)) :
    (∀ x y : ℤ, (x, y) ∈ diskPixels img cx cy (max 1 (radius - 2)) ↔
      (sq (x - cx) + sq (y - cy) ≤ sq (max 1 (radius - 2)) ∧ 0 ≤ x ∧
        x < (img.width : ℤ) ∧ 0 ≤ y ∧ y < (img.height : ℤ))) ∧
    detectBubbleFill img cx cy radius threshold =
      (decide (threshold ≤ diskFillFrac img cx cy (max 1 (radius - 2))),
       if threshold ≤ diskFillFrac img cx cy (max 1 (radius - 2)) then
         min (99/100) (diskFillFrac img cx cy (max 1 (radius - 2)) / threshold)
       else
         min (99/100) (1 - diskFillFrac img cx cy (max 1 (radius - 2)) / threshold)) := by
  constructor
  · intro x y
    exact mem_diskPixels_iff (by omega) x y
  · unfold detectBubbleFill
    rw [if_neg (by push_neg; exact ⟨h1, h3, h2, h4⟩ : ¬(cx < 0 ∨ cy < 0 ∨ (img.width : ℤ) ≤ cx ∨ (img.height : ℤ) ≤ cy))]
    rw [if_neg (bubbleSample_card_ne_zero (max 1 (radius - 2))
      (le_trans zero_le_one (le_max_left 1 _)) h1 h2 h3 h4)]
    rw [bubbleFillFrac_eq]
    by_cases hth : threshold ≤ diskFillFrac img cx cy (max 1 (radius - 2))
    · rw [if_pos hth, if_pos hth, decide_eq_true hth]
    · rw [if_neg hth, if_neg hth, decide_eq_false hth]

theorem c3_bubble_classifier_witness :
    detectBubbleFill dotImage 2 2 3 (3/10) = (false, 1/3) := by
  have h := (c3_bubble_classifier dotImage 2 2 3 (3/10)
    (by decide) (by decide) (by decide) (by decide)).2
  have hfrac : diskFillFrac dotImage 2 2 (max 1 (3 - 2)) = 1/5 := by
    have hc1 : ((diskPixels dotImage 2 2 (max 1 (3 - 2))).filter
        (fun q => dotImage.pix q.2 q.1 < 128)).card = 1 := by decide
    have hc2 : (diskPixels dotImage 2 2 (max 1 (3 - 2))).card = 5 := by decide
    unfold diskFillFrac
    rw [hc1, hc2]
    norm_num
  rw [h, hfrac, decide_eq_false (by norm_num : ¬((3:ℚ)/10 ≤ 1/5)),
    if_neg (by norm_num : ¬((3:ℚ)/10 ≤ 1/5))]
  norm_num [min_def]

/-- Claim C10 -- For a bubble center out of the image bounds,
`detect_bubble_fill` returns `(False, 0.0)` immediately. -/
theorem c10_out_of_bounds (img : Image) (cx cy radius : ℤ) (threshold : ℚ)
    (h : cx < 0 ∨ cy < 0 ∨ (img.width : ℤ) ≤ cx ∨ (img.height : ℤ) ≤ cy) :
    detectBubbleFill img cx cy radius threshold = (false, 0) := by
  unfold detectBubbleFill
  rw [if_pos h]

theorem c10_out_of_bounds_witness :
    detectBubbleFill dotImage (-1) 2 3 (3/10) = (false, 0) :=
  c10_out_of_bounds dotImage (-1) 2 3 (3/10) (Or.inl (by norm_num))

lemma offset_card_eq (cx cy : ℤ) (s t : Finset (ℤ × ℤ))
    (hmem : ∀ d : ℤ × ℤ, d ∈ s ↔ ((cx + d.2, cy + d.1) ∈ t)) :
    s.card = t.card := by
  apply Finset.card_bij (fun d _ => ((cx + d.2 : ℤ), (cy + d.1 : ℤ)))
  · intro d hd
    exact (hmem d).mp hd
  · rintro ⟨a1, a2⟩ - ⟨b1, b2⟩ - h
    simp only [Prod.mk.injEq] at h
    have e1 : a2 = b2 := by omega
    have e2 : a1 = b1 := by omega
    simp [e1, e2]
  · intro q hq
    refine ⟨(q.2 - cy, q.1 - cx), ?_, ?_⟩
    · rw [hmem]
      have e1 : cx + (q.2 - cy, q.1 - cx).2 = q.1 := by simp
      have e2 : cy + (q.2 - cy, q.1 - cx).1 = q.2 := by simp
      rw [e1, e2, Prod.mk.eta]
      exact hq
    · have e1 : cx + (q.2 - cy, q.1 - cx).2 = q.1 := by simp
      have e2 : cy + (q.2 - cy, q.1 - cx).1 = q.2 := by simp
      rw [e1, e2, Prod.mk.eta]

lemma mem_annulus_iff {img : Image} {cx cy r oR : ℤ} (d : ℤ × ℤ) :
    d ∈ annulusSample img cx cy r oR ↔
      (cx + d.2, cy + d.1) ∈ annulusPixels img cx cy r oR := by
  unfold annulusSample annulusPixels
  simp only [Finset.mem_filter, Finset.mem_product, Finset.mem_Icc]
  have e1 : cx + d.2 - cx = d.2 := by ring
  have e2 : cy + d.1 - cy = d.1 := by ring
  rw [e1, e2]
  constructor
  · rintro ⟨⟨u, v⟩, w⟩
    exact ⟨⟨by omega, by omega⟩, w⟩
  · rintro ⟨⟨u, v⟩, w⟩
    exact ⟨⟨by omega, by omega⟩, w⟩

lemma annulus_card_eq (img : Image) (cx cy r oR : ℤ) :
    (annulusSample img cx cy r oR).card = (annulusPixels img cx cy r oR).card :=
  offset_card_eq cx cy _ _ (fun d => mem_annulus_iff d)

lemma annulus_filter_card_eq (img : Image) (cx cy r oR : ℤ) :
    ((annulusSample img cx cy r oR).filter
        (fun d => 200 < img.pix (cy + d.1) (cx + d.2))).card =
      ((annulusPixels img cx cy r oR).filter
        (fun q => 200 < img.pix q.2 q.1)).card := by
  apply offset_card_eq cx cy
  intro d
  rw [Finset.mem_filter, Finset.mem_filter, mem_annulus_iff]

lemma annulusWhiteFrac_eq (img : Image) (cx cy r : ℤ) :
    annulusWhiteFrac img cx cy r = annulusWhitePixFrac img cx cy r := by
  unfold annulusWhiteFrac annulusWhitePixFrac
  rw [annulus_card_eq, annulus_filter_card_eq]

lemma diskPixels_eq_fullDisk {img : Image} {cx cy r : ℤ} (h0 : 0 ≤ r)
    (ha : r ≤ cx) (hb : cx < (img.width : ℤ) - r)
    (hc : r ≤ cy) (hd' : cy < (img.height : ℤ) - r) :
    diskPixels img cx cy r = fullDisk cx cy r := by
  ext q
  rw [mem_diskPixels]
  unfold fullDisk
  simp only [Finset.mem_filter, Finset.mem_product, Finset.mem_Icc]
  constructor
  · rintro ⟨u, v, w, -⟩
    exact ⟨⟨u, v⟩, w⟩
  · rintro ⟨⟨u, v⟩, w⟩
    exact ⟨u, v, w, by omega, by omega, by omega, by omega⟩

lemma diskFillFrac_eq_fullDisk {img : Image} {cx cy r : ℤ} (h0 : 0 ≤ r)
    (ha : r ≤ cx) (hb : cx < (img.width : ℤ) - r)
    (hc : r ≤ cy) (hd' : cy < (img.height : ℤ) - r) :
    diskFillFrac img cx cy r = fullDiskDarkFrac img cx cy r := by
  unfold diskFillFrac fullDiskDarkFrac
  rw [diskPixels_eq_fullDisk h0 ha hb hc hd']

lemma isDarkCircle_formula {img : Image} (cx cy r : ℤ) (h0 : 0 ≤ r)
    (ha : r ≤ cx) (hb : cx < (img.width : ℤ) - r)
    (hc : r ≤ cy) (hd' : cy < (img.height : ℤ) - r) :
    isDarkCircle img cx cy r =
      (7/10) * fullDiskDarkFrac img cx cy r +
        (3/10) * annulusWhitePixFrac img cx cy r := by
  unfold isDarkCircle
  rw [if_neg (by push_neg; exact ⟨ha, hc, hb, hd'⟩ :
    ¬(cx < r ∨ cy < r ∨ (img.width : ℤ) - r ≤ cx ∨ (img.height : ℤ) - r ≤ cy))]
  rw [if_neg (bubbleSample_card_ne_zero r h0 (by omega) (by omega) (by omega) (by omega))]
  rw [bubbleFillFrac_eq, diskFillFrac_eq_fullDisk h0 ha hb hc hd', annulusWhiteFrac_eq]
  ring

lemma isDarkCircle_nonneg (img : Image) (cx cy r : ℤ) :
    0 ≤ isDarkCircle img cx cy r := by
  unfold isDarkCircle
  split
  · exact le_refl 0
  · split
    · exact le_refl 0
    · have h1 : 0 ≤ bubbleFillFrac img cx cy r := by
        unfold bubbleFillFrac; positivity
      have h2 : 0 ≤ annulusWhiteFrac img cx cy r := by
        unfold annulusWhiteFrac; positivity
      positivity

lemma foldl_pairList {γ : Type} (f : γ → ℤ × ℤ → γ) (l1 l2 : List ℤ) :
    ∀ init : γ,
      l1.foldl (fun acc a => l2.foldl (fun a2 b => f a2 (a, b)) acc) init =
        (pairList l1 l2).foldl f init := by
  induction l1 with
  | nil => intro init; rfl
  | cons a as ih =>
    intro init
    simp only [pairList, List.foldl_cons, List.foldl_append, List.foldl_map]
    exact ih _

lemma foldl_best_snd (sc : ℤ × ℤ → ℚ) (pos : ℤ × ℤ → ℤ × ℤ) :
    ∀ (L : List (ℤ × ℤ)) (acc : Option (ℤ × ℤ) × ℚ),
      (L.foldl (fun a d => if a.2 < sc d then (some (pos d), sc d) else a) acc).2 =
        (L.map sc).foldl max acc.2 := by
  intro L
  induction L with
  | nil => intro acc; rfl
  | cons d L ih =>
    intro acc
    rw [List.foldl_cons, ih, List.map_cons, List.foldl_cons]
    congr 1
    by_cases h : acc.2 < sc d
    · rw [if_pos h]
      exact (max_eq_right (le_of_lt h)).symm
    · rw [if_neg h]
      exact (max_eq_left (not_lt.mp h)).symm

lemma foldl_best_isSome (sc : ℤ × ℤ → ℚ) (pos : ℤ × ℤ → ℤ × ℤ) :
    ∀ (L : List (ℤ × ℤ)) (acc : Option (ℤ × ℤ) × ℚ),
      ((L.foldl (fun a d => if a.2 < sc d then (some (pos d), sc d) else a) acc).1.isSome = true ↔
        (acc.1.isSome = true ∨ ∃ d ∈ L, acc.2 < sc d)) := by
  intro L
  induction L with
  | nil => intro acc; simp
  | cons d L ih =>
    intro acc
    rw [List.foldl_cons]
    by_cases h : acc.2 < sc d
    · rw [if_pos h, ih]
      simp only [Option.isSome_some, true_or, true_iff]
      exact Or.inr ⟨d, List.mem_cons_self d L, h⟩
    · rw [if_neg h, ih]
      constructor
      · rintro (hs | ⟨e, he, hlt⟩)
        · exact Or.inl hs
        · exact Or.inr ⟨e, List.mem_cons_of_mem d he, hlt⟩
      · rintro (hs | ⟨e, he, hlt⟩)
        · exact Or.inl hs
        · rcases List.mem_cons.mp he with rfl | he'
          · exact absurd hlt h
          · exact Or.inr ⟨e, he', hlt⟩

lemma foldl_max_lt_iff (c : ℚ) :
    ∀ (l : List ℚ) (a : ℚ), c < l.foldl max a ↔ (c < a ∨ ∃ x ∈ l, c < x) := by
  intro l
  induction l with
  | nil => intro a; simp
  | cons x l ih =>
    intro a
    rw [List.foldl_cons, ih, lt_max_iff]
    constructor
    · rintro ((h | h) | ⟨y, hy, hcy⟩)
      · exact Or.inl h
      · exact Or.inr ⟨x, List.mem_cons_self x l, h⟩
      · exact Or.inr ⟨y, List.mem_cons_of_mem x hy, hcy⟩
    · rintro (h | ⟨y, hy, hcy⟩)
      · exact Or.inl (Or.inl h)
      · rcases List.mem_cons.mp hy with rfl | hy'
        · exact Or.inl (Or.inr hcy)
        · exact Or.inr ⟨y, hy', hcy⟩

lemma bestCandidate_eq_foldl (img : Image) (ex ey er : ℤ) :
    bestCandidate img ex ey er =
      (pairList searchOffsets searchOffsets).foldl
        (fun a d => if a.2 < isDarkCircle img (ex + d.2) (ey + d.1) er then
          (some (ex + d.2, ey + d.1), isDarkCircle img (ex + d.2) (ey + d.1) er)
          else a) (none, 0) := by
  unfold bestCandidate
  exact foldl_pairList
    (fun a d => if a.2 < isDarkCircle img (ex + d.2) (ey + d.1) er then
      (some (ex + d.2, ey + d.1), isDarkCircle img (ex + d.2) (ey + d.1) er)
      else a) searchOffsets searchOffsets (none, 0)

lemma bestCandidate_snd (img : Image) (ex ey er : ℤ) :
    (bestCandidate img ex ey er).2 = maxGridScore img ex ey er := by
  rw [bestCandidate_eq_foldl]
  exact foldl_best_snd (fun d => isDarkCircle img (ex + d.2) (ey + d.1) er)
    (fun d => (ex + d.2, ey + d.1)) (pairList searchOffsets searchOffsets) (none, 0)

lemma bestCandidate_isSome_iff (img : Image) (ex ey er : ℤ) :
    ((bestCandidate img ex ey er).1.isSome = true ↔
      ∃ d ∈ pairList searchOffsets searchOffsets,
        0 < isDarkCircle img (ex + d.2) (ey + d.1) er) := by
  rw [bestCandidate_eq_foldl]
  exact (foldl_best_isSome (fun d => isDarkCircle img (ex + d.2) (ey + d.1) er)
    (fun d => (ex + d.2, ey + d.1)) (pairList searchOffsets searchOffsets) (none, 0)).trans
    (by simp)

lemma maxGridScore_isSome {img : Image} {ex ey er : ℤ}
    (h : 7/10 < maxGridScore img ex ey er) :
    (bestCandidate img ex ey er).1.isSome = true := by
  rw [bestCandidate_isSome_iff]
  have h0 : 0 < maxGridScore img ex ey er := lt_trans (by norm_num) h
  unfold maxGridScore at h0
  rw [foldl_max_lt_iff] at h0
  rcases h0 with h0 | ⟨x, hx, hpos⟩
  · norm_num at h0
  · obtain ⟨d, hd, rfl⟩ := List.mem_map.mp hx
    exact ⟨d, hd, hpos⟩

set_option maxRecDepth 4000 in
lemma detectMark_detected_iff (img : Image) (dpi : ℕ) (m : RegMark) :
    ((detectMark img dpi m).detected.isSome = true ↔
      7/10 < maxGridScore img (mmToPixels m.x_mm dpi) (mmToPixels m.y_mm dpi)
        (mmToPixels m.size_mm dpi)) := by
  unfold detectMark
  by_cases hcond : (bestCandidate img (mmToPixels m.x_mm dpi) (mmToPixels m.y_mm dpi)
        (mmToPixels m.size_mm dpi)).1.isSome = true ∧
      7/10 < (bestCandidate img (mmToPixels m.x_mm dpi) (mmToPixels m.y_mm dpi)
        (mmToPixels m.size_mm dpi)).2
  · rw [if_pos hcond]
    exact iff_of_true hcond.1 (by rw [← bestCandidate_snd]; exact hcond.2)
  · rw [if_neg hcond]
    refine iff_of_false (by simp) ?_
    intro h
    exact hcond ⟨maxGridScore_isSome h, by rw [bestCandidate_snd]; exact h⟩

/-- Claim C5 (amended) -- For each expected registration mark the locator
produces one result; a mark is detected iff the best `_is_dark_circle`
score over the 5-pixel grid within ±20 pixels of the expected position
exceeds 0.7; rectification succeeds iff at least 3 marks are detected; and
for every candidate whose mark disk fits inside the image, the score is
`0.7 × (dark fraction of the interior disk) + 0.3 × (light fraction of the
in-bounds annulus with pixel-discretized outer radius int(1.5·r))`.
Candidates whose disk does not fit score 0 (see the counterexample against
the claim as stated). -/
theorem c5_registration_locator (img : Image) (marks : List RegMark) (dpi : ℕ) :
    (detectRegistrationMarks img marks dpi).1 = marks.map (detectMark img dpi) ∧
    ((detectRegistrationMarks img marks dpi).2 = true ↔
      3 ≤ ((detectRegistrationMarks img marks dpi).1.filter
        (fun r => r.detected.isSome)).length) ∧
    (∀ m ∈ marks, ((detectMark img dpi m).detected.isSome = true ↔
      7/10 < maxGridScore img (mmToPixels m.x_mm dpi) (mmToPixels m.y_mm dpi)
        (mmToPixels m.size_mm dpi))) ∧
    (∀ cx cy r : ℤ, 0 ≤ r → r ≤ cx → cx < (img.width : ℤ) - r → r ≤ cy →
      cy < (img.height : ℤ) - r →
      isDarkCircle img cx cy r =
        (7/10) * fullDiskDarkFrac img cx cy r +
          (3/10) * annulusWhitePixFrac img cx cy r) := by
  refine ⟨rfl, ?_, ?_, ?_⟩
  · unfold detectRegistrationMarks
    simp only [decide_eq_true_eq]
  · intro m _
    exact detectMark_detected_iff img dpi m
  · intro cx cy r h0 ha hb hc hd'
    exact isDarkCircle_formula cx cy r h0 ha hb hc hd'

theorem c5_registration_locator_witness :
    isDarkCircle allDark5 2 2 1 =
      (7/10) * fullDiskDarkFrac allDark5 2 2 1 +
        (3/10) * annulusWhitePixFrac allDark5 2 2 1 ∧
    isDarkCircle allDark5 2 2 1 = 7/10 := by
  have h := (c5_registration_locator allDark5 [] 300).2.2.2 2 2 1
    (by norm_num) (by norm_num) (by decide) (by norm_num) (by decide)
  refine ⟨h, ?_⟩
  rw [h]
  have hfd : fullDiskDarkFrac allDark5 2 2 1 = 1 := by
    have hc1 : ((fullDisk 2 2 1).filter
        (fun q => allDark5.pix q.2 q.1 < 128)).card = 5 := by decide
    have hc2 : (fullDisk 2 2 1).card = 5 := by decide
    unfold fullDiskDarkFrac
    rw [hc1, hc2]
    norm_num
  have hpt : pytrunc ((1 : ℤ) * 3 / 2 : ℚ) = 1 := by
    norm_num [pytrunc]
  have haw : annulusWhitePixFrac allDark5 2 2 1 = 0 := by
    unfold annulusWhitePixFrac
    rw [hpt]
    have hc3 : (annulusPixels allDark5 2 2 1 1).card = 0 := by decide
    rw [hc3]
    norm_num
  rw [hfd, haw]
  norm_num

/-- Counterexample to claim C5 as stated: at a candidate too close to the
border (all-dark 5x5 image, candidate center (2,2), radius 3) the code
scores 0, while the claimed formula (with exact outer radius 1.5·r) gives
0.7. -/
theorem c5_registration_locator_cex :
    isDarkCircle allDark5 2 2 3 = 0 ∧
      claimCandidateScore allDark5 2 2 3 = 7/10 := by
  constructor
  · unfold isDarkCircle
    rw [if_pos (Or.inl (by norm_num : (2:ℤ) < 3))]
  · unfold claimCandidateScore
    have h1 : ((diskPixels allDark5 2 2 3).filter
        (fun q => allDark5.pix q.2 q.1 < 128)).card = 25 := by decide
    have h2 : (diskPixels allDark5 2 2 3).card = 25 := by decide
    have h3 : (annulusPixelsExact allDark5 2 2 3).card = 0 := by decide
    have h4 : ((annulusPixelsExact allDark5 2 2 3).filter
        (fun q => 200 < allDark5.pix q.2 q.1)).card = 0 := by decide
    unfold diskFillFrac
    rw [h1, h2, h3, h4]
    norm_num

lemma detectBubbleFill_filled_conf (img : Image) (cx cy r : ℤ)
    (h : (detectBubbleFill img cx cy r (3/10)).1 = true) :
    (detectBubbleFill img cx cy r (3/10)).2 = 99/100 := by
  unfold detectBubbleFill at h ⊢
  by_cases g1 : cx < 0 ∨ cy < 0 ∨ (img.width : ℤ) ≤ cx ∨ (img.height : ℤ) ≤ cy
  · rw [if_pos g1] at h
    simp at h
  · rw [if_neg g1] at h ⊢
    by_cases g2 : (bubbleSample img cx cy (max 1 (r - 2))).card = 0
    · rw [if_pos g2] at h
      simp at h
    · rw [if_neg g2] at h ⊢
      by_cases g3 : (3/10 : ℚ) ≤ bubbleFillFrac img cx cy (max 1 (r - 2))
      · rw [if_pos g3]
        show min (99/100) (bubbleFillFrac img cx cy (max 1 (r - 2)) / (3/10)) = 99/100
        apply min_eq_left
        rw [le_div_iff (by norm_num : (0:ℚ) < 3/10)]
        linarith
      · rw [if_neg g3] at h
        simp at h

lemma fieldDetect_conf {img : Image} {dpi : ℕ} {f : AnswerField}
    (h : (fieldDetect img dpi f).1 = true) :
    (fieldDetect img dpi f).2 = 99/100 :=
  detectBubbleFill_filled_conf img (mmToPixels f.x_mm dpi)
    (mmToPixels f.y_mm dpi) (mmToPixels (f.radius_mm.getD 3) dpi) h

lemma filledFields_cons_pos {img : Image} {dpi : ℕ} {f : AnswerField}
    (fs : List AnswerField) (hf : (fieldDetect img dpi f).1 = true) :
    filledFields img dpi (f :: fs) =
      (f.label, (fieldDetect img dpi f).2) :: filledFields img dpi fs := by
  unfold filledFields
  rw [List.filterMap_cons]
  simp [hf]

lemma filledFields_cons_neg {img : Image} {dpi : ℕ} {f : AnswerField}
    (fs : List AnswerField) (hf : ¬(fieldDetect img dpi f).1 = true) :
    filledFields img dpi (f :: fs) = filledFields img dpi fs := by
  unfold filledFields
  rw [List.filterMap_cons]
  simp [hf]

lemma choiceFold_go (img : Image) (dpi : ℕ) :
    ∀ (fields : List AnswerField) (e : Option String) (m : ℚ)
      (acc : List (String × ℚ)),
      ((acc = [] ∧ e = none ∧ m = 0) ∨ (acc ≠ [] ∧ m = 99/100)) →
      fields.foldl (choiceStep img dpi) (e, m, acc) =
        ((if acc = [] then (filledFields img dpi fields).head?.map Prod.fst else e),
         (if acc = [] ∧ filledFields img dpi fields = [] then (0:ℚ) else 99/100),
         acc ++ filledFields img dpi fields) := by
  intro fields
  induction fields with
  | nil =>
    rintro e m acc (⟨ha, he, hm⟩ | ⟨hne, hm⟩)
    · subst ha; subst he; subst hm
      simp [filledFields]
    · subst hm
      simp [filledFields, hne]
  | cons f fs ih =>
    rintro e m acc hyp
    rw [List.foldl_cons]
    by_cases hf : (fieldDetect img dpi f).1 = true
    · have hc := fieldDetect_conf hf
      rcases hyp with ⟨ha, he, hm⟩ | ⟨hne, hm⟩
      · subst ha; subst he; subst hm
        have hstep : choiceStep img dpi (none, 0, ([] : List (String × ℚ))) f =
            (some f.label, (fieldDetect img dpi f).2,
              [(f.label, (fieldDetect img dpi f).2)]) := by
          simp only [choiceStep]
          rw [if_pos hf, if_pos (by rw [hc]; norm_num :
            (0:ℚ) < (fieldDetect img dpi f).2)]
          simp
        rw [hstep, ih (some f.label) ((fieldDetect img dpi f).2)
          [(f.label, (fieldDetect img dpi f).2)] (Or.inr ⟨by simp, hc⟩),
          filledFields_cons_pos fs hf]
        simp
      · subst hm
        have hstep : choiceStep img dpi (e, 99/100, acc) f =
            (e, 99/100, acc ++ [(f.label, (fieldDetect img dpi f).2)]) := by
          simp only [choiceStep]
          rw [if_pos hf, if_neg (by rw [hc]; exact lt_irrefl _ :
            ¬(99/100 : ℚ) < (fieldDetect img dpi f).2)]
        rw [hstep, ih e (99/100) (acc ++ [(f.label, (fieldDetect img dpi f).2)])
          (Or.inr ⟨by simp, rfl⟩), filledFields_cons_pos fs hf]
        simp [hne]
    · have hstep : choiceStep img dpi (e, m, acc) f = (e, m, acc) := by
        simp only [choiceStep]
        rw [if_neg hf]
      rw [hstep, ih e m acc hyp, filledFields_cons_neg fs hf]

lemma choiceFold_eq (img : Image) (dpi : ℕ) (fields : List AnswerField) :
    choiceFold img dpi fields =
      ((filledFields img dpi fields).head?.map Prod.fst,
       (if filledFields img dpi fields = [] then (0:ℚ) else 99/100),
       filledFields img dpi fields) := by
  have h := choiceFold_go img dpi fields none 0 [] (Or.inl ⟨rfl, rfl, rfl⟩)
  unfold choiceFold
  rw [h]
  simp

lemma mem_filledFields_conf {img : Image} {dpi : ℕ} {fields : List AnswerField}
    {p : String × ℚ} (hp : p ∈ filledFields img dpi fields) : p.2 = 99/100 := by
  unfold filledFields at hp
  rw [List.mem_filterMap] at hp
  obtain ⟨f, -, heq⟩ := hp
  by_cases h : (fieldDetect img dpi f).1 = true
  · rw [if_pos h, Option.some.injEq] at heq
    rw [← heq]
    exact fieldDetect_conf h
  · rw [if_neg h] at heq
    cases heq

lemma foldl_max_const : ∀ (l : List ℚ) (a : ℚ), (∀ x ∈ l, x = a) →
    l.foldl max a = a := by
  intro l
  induction l with
  | nil => intro a _; rfl
  | cons x l ih =>
    intro a h
    rw [List.foldl_cons, h x (List.mem_cons_self x l), max_self]
    exact ih a (fun y hy => h y (List.mem_cons_of_mem x hy))

lemma maxConfOf_filled {img : Image} {dpi : ℕ} {fields : List AnswerField}
    (hne : filledFields img dpi fields ≠ []) :
    maxConfOf (filledFields img dpi fields) = 99/100 := by
  obtain ⟨p, ps, hcons⟩ := List.exists_cons_of_ne_nil hne
  unfold maxConfOf
  rw [hcons, List.map_cons, List.foldl_cons]
  have hp : p.2 = 99/100 :=
    mem_filledFields_conf (hcons ▸ List.mem_cons_self p ps)
  rw [hp, max_eq_right (by norm_num : (0:ℚ) ≤ 99/100)]
  apply foldl_max_const
  intro x hx
  obtain ⟨q, hq, rfl⟩ := List.mem_map.mp hx
  exact mem_filledFields_conf (hcons ▸ List.mem_cons_of_mem p hq)

lemma pyRound_zero : pyRound 0 3 = 0 := by
  norm_num [pyRound, roundHalfEven]

lemma pyRound_conf : pyRound (99/100) 3 = 99/100 := by
  norm_num [pyRound, roundHalfEven]

/-- Claim C4 -- For a choice-type question: with no filled field the result
is `(null, 0, [no_bubble_filled])`; with more than one filled field the
flags are `[multiple_bubbles_filled]` and the confidence is the highest
filled confidence halved (then rounded to 3 digits); with at least one
filled field the extracted label is a filled field of maximal
confidence. -/
theorem c4_choice_extraction (img : Image) (dpi : ℕ) (fields : List AnswerField) :
    (filledFields img dpi fields = [] →
      extractChoice img dpi fields = (none, 0, ["no_bubble_filled"])) ∧
    (1 < (filledFields img dpi fields).length →
      (extractChoice img dpi fields).2.2 = ["multiple_bubbles_filled"] ∧
      (extractChoice img dpi fields).2.1 =
        pyRound (maxConfOf (filledFields img dpi fields) * (1/2)) 3) ∧
    (filledFields img dpi fields ≠ [] →
      ∃ p ∈ filledFields img dpi fields,
        (extractChoice img dpi fields).1 = some p.1 ∧
        p.2 = maxConfOf (filledFields img dpi fields)) := by
  refine ⟨?_, ?_, ?_⟩
  · intro hff
    unfold extractChoice
    rw [choiceFold_eq]
    simp [hff, pyRound_zero]
  · intro hlen
    have hne : filledFields img dpi fields ≠ [] := by
      intro h; rw [h] at hlen; simp at hlen
    unfold extractChoice
    rw [choiceFold_eq]
    simp only [if_neg hne]
    rw [if_pos (by simpa using hlen), maxConfOf_filled hne]
    exact ⟨rfl, rfl⟩
  · intro hne
    obtain ⟨p, ps, hcons⟩ := List.exists_cons_of_ne_nil hne
    refine ⟨p, hcons ▸ List.mem_cons_self p ps, ?_, ?_⟩
    · unfold extractChoice
      rw [choiceFold_eq]
      split_ifs <;> simp [hcons]
    · rw [maxConfOf_filled hne]
      exact mem_filledFields_conf (hcons ▸ List.mem_cons_self p ps)

lemma whiteFieldDetect :
    fieldDetect whiteImage12 300 witField = (false, 99/100) := by
  unfold fieldDetect witField
  have e1 : mmToPixels 1 300 = 11 := by norm_num [mmToPixels, pytrunc]
  have e5 : mmToPixels ((some ((1:ℚ)/2)).getD 3) 300 = 5 := by
    norm_num [mmToPixels, pytrunc]
  rw [e1, e5]
  have h := (c3_bubble_classifier whiteImage12 11 11 5 (3/10)
    (by decide) (by decide) (by decide) (by decide)).2
  rw [h]
  have hfrac : diskFillFrac whiteImage12 11 11 (max 1 (5 - 2)) = 0 := by
    have hc1 : ((diskPixels whiteImage12 11 11 (max 1 (5 - 2))).filter
        (fun q => whiteImage12.pix q.2 q.1 < 128)).card = 0 := by decide
    unfold diskFillFrac
    rw [hc1]
    norm_num
  rw [hfrac, decide_eq_false (by norm_num : ¬((3:ℚ)/10 ≤ 0)),
    if_neg (by norm_num : ¬((3:ℚ)/10 ≤ 0))]
  norm_num [min_def]

theorem c4_choice_extraction_witness :
    extractChoice whiteImage12 300 [witField] = (none, 0, ["no_bubble_filled"]) := by
  have hff : filledFields whiteImage12 300 [witField] = [] := by
    unfold filledFields
    simp [whiteFieldDetect]
  exact (c4_choice_extraction whiteImage12 300 [witField]).1 hff

lemma answerRecordFor_wf {q : QuestionLayout} (img : Image) (dpi : ℕ)
    (h : WFQuestion q) :
    ∃ rec : AnswerRecord, answerRecordFor img dpi q = some rec ∧
      rec.question_id = q.question_id ∧
      rec.question_number = q.question_number.getD 0 ∧
      rec.question_type = q.qtype := by
  unfold answerRecordFor
  rcases h with ⟨ht, ha⟩ | ⟨ht, ho⟩
  · rw [if_pos ⟨ht, ha⟩]
    exact ⟨_, rfl, rfl, rfl, rfl⟩
  · have hneg : ¬((q.qtype = "multiple_choice" ∨ q.qtype = "true_false") ∧
        q.answer_fields.isSome = true) := by
      rintro ⟨h2, -⟩
      rcases ht with h1 | h1 <;> rcases h2 with h2 | h2 <;> rw [h1] at h2 <;>
        exact absurd h2 (by decide)
    rw [if_neg hneg, if_pos ⟨ht, ho⟩]
    exact ⟨_, rfl, rfl, rfl, rfl⟩

lemma filterMap_records (img : Image) (dpi : ℕ) :
    ∀ qs : List QuestionLayout, (∀ q ∈ qs, WFQuestion q) →
      (qs.filterMap (answerRecordFor img dpi)).map
          (fun a => (a.question_id, a.question_number, a.question_type)) =
        qs.map (fun q => (q.question_id, q.question_number.getD 0, q.qtype)) := by
  intro qs
  induction qs with
  | nil => intro _; rfl
  | cons q qs ih =>
    intro h
    obtain ⟨rec, hrec, h1, h2, h3⟩ :=
      answerRecordFor_wf img dpi (h q (List.mem_cons_self q qs))
    simp only [List.filterMap_cons, hrec, List.map_cons]
    rw [ih (fun q' hq' => h q' (List.mem_cons_of_mem q hq')), h1, h2, h3]

/-- Claim C9 -- Under the spec's data model (each question layout record
has one of the four type tags with the matching `answer_fields` /
`ocr_region` present), extraction assembles exactly one answer record per
layout question, carrying that question's id, number and type. -/
theorem c9_one_record_per_question (img : Image) (layout : TemplateLayout)
    (h : ∀ q ∈ layout.questions, WFQuestion q) :
    (extractAnswers img layout).1.length = layout.questions.length ∧
    (extractAnswers img layout).1.map
        (fun a => (a.question_id, a.question_number, a.question_type)) =
      layout.questions.map
        (fun q => (q.question_id, q.question_number.getD 0, q.qtype)) := by
  have hm := filterMap_records img layout.page_info.dpi layout.questions h
  constructor
  · have hlen := congrArg List.length hm
    rw [List.length_map, List.length_map] at hlen
    exact hlen
  · exact hm

theorem c9_one_record_per_question_witness :
    (extractAnswers whiteImage12 witLayout9).1.length =
      witLayout9.questions.length ∧
    (extractAnswers whiteImage12 witLayout9).1.map
        (fun a => (a.question_id, a.question_number, a.question_type)) =
      witLayout9.questions.map
        (fun q => (q.question_id, q.question_number.getD 0, q.qtype)) :=
  c9_one_record_per_question whiteImage12 witLayout9 (by decide)

/-- Claim C8 (amended) -- For `|k| > 0.001` each in-grid destination pixel
`(x, y)` of the skew stage takes the source pixel of the same row at column
`x - int(k * (y - height/2))` (truncation toward zero, not `round`) when in
bounds, else white; for `|k| ≤ 0.001` the canvas passes through
unchanged. -/
theorem c8_skew_transform (img : Image) (k : ℚ) :
    (1/1000 < |k| →
      ∀ y x : ℤ, 0 ≤ y → y < (img.height : ℤ) → 0 ≤ x → x < (img.width : ℤ) →
        (applySkewStage img k).pix y x =
          (if 0 ≤ x - pytrunc (k * ((y : ℚ) - (img.height : ℚ) / 2)) ∧
              x - pytrunc (k * ((y : ℚ) - (img.height : ℚ) / 2)) < (img.width : ℤ) then
            img.pix y (x - pytrunc (k * ((y : ℚ) - (img.height : ℚ) / 2)))
          else 255)) ∧
    (|k| ≤ 1/1000 → applySkewStage img k = img) := by
  constructor
  · intro hk y x hy1 hy2 hx1 hx2
    unfold applySkewStage
    rw [if_pos hk]
    show (if 0 ≤ y ∧ y < (img.height : ℤ) ∧ 0 ≤ x ∧ x < (img.width : ℤ) then _ else 255) = _
    rw [if_pos ⟨hy1, hy2, hx1, hx2⟩]
  · intro hk
    unfold applySkewStage
    rw [if_neg (not_lt.mpr hk)]

theorem c8_skew_transform_witness :
    (1:ℚ)/1000 < |(9:ℚ)/5| ∧
    (applySkewStage skewTiny (9/5)).pix 0 0 =
      (if 0 ≤ (0:ℤ) - pytrunc ((9/5) * (((0:ℤ) : ℚ) - ((1:ℕ) : ℚ) / 2)) ∧
          (0:ℤ) - pytrunc ((9/5) * (((0:ℤ) : ℚ) - ((1:ℕ) : ℚ) / 2)) < ((2:ℕ) : ℤ) then
        skewTiny.pix 0 ((0:ℤ) - pytrunc ((9/5) * (((0:ℤ) : ℚ) - ((1:ℕ) : ℚ) / 2)))
      else 255) :=
  ⟨by rw [abs_of_pos (by norm_num : (0:ℚ) < 9/5)]; norm_num,
   (c8_skew_transform skewTiny (9/5)).1
     (by rw [abs_of_pos (by norm_num : (0:ℚ) < 9/5)]; norm_num) 0 0 (by norm_num)
     (by norm_num [skewTiny]) (by norm_num) (by norm_num [skewTiny])⟩

/-- Counterexample to claim C8 as stated: with `k = 1.8` on a 2x1 canvas
whose left pixel is black, the code keeps the black pixel at (0,0)
(`int(-0.9) = 0`) while the claimed `round` formula fetches the white right
pixel (`round(-0.9) = -1`). -/
theorem c8_skew_transform_cex :
    (applySkewStage skewTiny (9/5)).pix 0 0 = 0 ∧
      claimSkewPix skewTiny (9/5) 0 0 = 255 := by
  constructor
  · have h := (c8_skew_transform skewTiny (9/5)).1
      (by rw [abs_of_pos (by norm_num : (0:ℚ) < 9/5)]; norm_num) 0 0 (by norm_num)
      (by norm_num [skewTiny]) (by norm_num) (by norm_num [skewTiny])
    rw [h]
    have ht : pytrunc ((9/5 : ℚ) * (((0:ℤ) : ℚ) - ((skewTiny.height : ℕ) : ℚ) / 2)) = 0 := by
      norm_num [skewTiny, pytrunc]
    rw [ht]
    norm_num [skewTiny]
  · unfold claimSkewPix
    have hr : round ((9/5 : ℚ) * (((0:ℤ) : ℚ) - ((skewTiny.height : ℕ) : ℚ) / 2)) = -1 := by
      norm_num [skewTiny, round_eq]
    rw [hr]
    norm_num [skewTiny]

lemma applyTriplesF_spec (orig : Image) :
    ∀ (ps : List (ℕ × ℕ × ℕ)) (pf : PixFun) (y x : ℕ),
      (∀ t ∈ ps, (t.2.2 : ℕ) = orig.pix (t.2.1 : ℤ) (t.1 : ℤ)) →
      ((∃ t ∈ ps, t.2.1 = y ∧ t.1 = x) →
        applyTriplesF pf ps (y : ℤ) (x : ℤ) = orig.pix (y : ℤ) (x : ℤ)) ∧
      ((¬ ∃ t ∈ ps, t.2.1 = y ∧ t.1 = x) →
        applyTriplesF pf ps (y : ℤ) (x : ℤ) = pf (y : ℤ) (x : ℤ)) := by
  intro ps
  induction ps with
  | nil =>
    intro pf y x _
    refine ⟨?_, fun _ => rfl⟩
    rintro ⟨t, ht, -⟩
    cases ht
  | cons t ps ih =>
    intro pf y x hv
    have hv' : ∀ u ∈ ps, (u.2.2 : ℕ) = orig.pix (u.2.1 : ℤ) (u.1 : ℤ) :=
      fun u hu => hv u (List.mem_cons_of_mem t hu)
    have hstep : applyTriplesF pf (t :: ps) = applyTriplesF
        (fun py px => if py = (t.2.1 : ℤ) ∧ px = (t.1 : ℤ) then t.2.2 else pf py px)
        ps := rfl
    rw [hstep]
    obtain ⟨ihA, ihB⟩ := ih
      (fun py px => if py = (t.2.1 : ℤ) ∧ px = (t.1 : ℤ) then t.2.2 else pf py px)
      y x hv'
    constructor
    · rintro ⟨u, hu, huy, hux⟩
      by_cases hmem : ∃ u ∈ ps, u.2.1 = y ∧ u.1 = x
      · exact ihA hmem
      · rcases List.mem_cons.mp hu with rfl | hu'
        · rw [ihB hmem]
          rw [if_pos ⟨by exact_mod_cast huy.symm, by exact_mod_cast hux.symm⟩]
          rw [hv u (List.mem_cons_self u ps), huy, hux]
        · exact absurd ⟨u, hu', huy, hux⟩ hmem
    · intro hnone
      have hnps : ¬ ∃ u ∈ ps, u.2.1 = y ∧ u.1 = x := by
        rintro ⟨u, hu, he⟩
        exact hnone ⟨u, List.mem_cons_of_mem t hu, he⟩
      rw [ihB hnps]
      rw [if_neg]
      rintro ⟨h1, h2⟩
      exact hnone ⟨t, List.mem_cons_self t ps, by exact_mod_cast h1.symm, by exact_mod_cast h2.symm⟩

lemma mem_saveCompact {img : Image} {t : ℕ × ℕ × ℕ} :
    t ∈ (saveCompact img).pixels ↔
      t.2.1 < img.height ∧ t.1 < img.width ∧
        img.pix (t.2.1 : ℤ) (t.1 : ℤ) < 255 ∧
        t.2.2 = img.pix (t.2.1 : ℤ) (t.1 : ℤ) := by
  unfold saveCompact
  simp only [List.mem_flatMap, List.mem_filterMap, List.mem_range]
  constructor
  · rintro ⟨y, hy, x, hx, heq⟩
    by_cases hlt : img.pix (y : ℤ) (x : ℤ) < 255
    · rw [if_pos hlt, Option.some.injEq] at heq
      rw [← heq]
      exact ⟨hy, hx, hlt, rfl⟩
    · rw [if_neg hlt] at heq
      cases heq
  · rintro ⟨hy, hx, hlt, hval⟩
    refine ⟨t.2.1, hy, t.1, hx, ?_⟩
    rw [if_pos hlt, Option.some.injEq, ← hval]

/-- Claim C7 -- For every grid with intensities in [0,255] and fewer than
5% non-white pixels, the sparse round trip `load_image ∘ save_compact`
preserves the dimensions and every pixel (deserialization starts from a
fully white canvas of the stored size and applies the stored triples: that
is the definition of `loadSparse`). -/
theorem c7_sparse_round_trip (img : Image)
    (hval : ∀ y < img.height, ∀ x < img.width,
      img.pix (y : ℤ) (x : ℤ) ≤ 255)
    (hsparse : 20 * nonWhiteCount img < img.width * img.height) :
    (loadSparse (saveCompact img)).width = img.width ∧
    (loadSparse (saveCompact img)).height = img.height ∧
    ∀ y < img.height, ∀ x < img.width,
      (loadSparse (saveCompact img)).pix (y : ℤ) (x : ℤ) =
        img.pix (y : ℤ) (x : ℤ) := by
  refine ⟨rfl, rfl, ?_⟩
  intro y hy x hx
  have hvt : ∀ t ∈ (saveCompact img).pixels,
      (t.2.2 : ℕ) = img.pix (t.2.1 : ℤ) (t.1 : ℤ) :=
    fun t ht => (mem_saveCompact.mp ht).2.2.2
  obtain ⟨hA, hB⟩ := applyTriplesF_spec img (saveCompact img).pixels
    (fun _ _ => 255) y x hvt
  show applyTriplesF (fun _ _ => 255) (saveCompact img).pixels (y : ℤ) (x : ℤ) =
    img.pix (y : ℤ) (x : ℤ)
  by_cases hpx : img.pix (y : ℤ) (x : ℤ) < 255
  · exact hA ⟨(x, y, img.pix (y : ℤ) (x : ℤ)),
      mem_saveCompact.mpr ⟨hy, hx, hpx, rfl⟩, rfl, rfl⟩
  · rw [hB]
    · have := hval y hy x hx
      omega
    · rintro ⟨t, ht, hty, htx⟩
      obtain ⟨-, -, hlt, -⟩ := mem_saveCompact.mp ht
      rw [hty, htx] at hlt
      exact hpx hlt

theorem c7_sparse_round_trip_witness :
    (loadSparse (saveCompact c7img)).width = c7img.width ∧
    (loadSparse (saveCompact c7img)).pix 1 2 = c7img.pix 1 2 ∧
    (loadSparse (saveCompact c7img)).pix 0 0 = c7img.pix 0 0 := by
  have h := c7_sparse_round_trip c7img (by decide) (by decide)
  exact ⟨h.1, h.2.2 1 (by decide) 2 (by decide), h.2.2 0 (by decide) 0 (by decide)⟩

/-- Claim C2 (amended) -- With the random stream passed explicitly the
whole pipeline is a pure function of its inputs, so a fixed seed reproduces
the image and every clock-independent field of the scan result; but the
scan result is not bit-for-bit identical across runs: `scan_metadata`'s
`scan_timestamp` and `processing_time_ms` record the wall clock.  Every
other field — version, identification, rectification, answers,
quality_metrics, image_source, scanner_version — is independent of the
clock readings. -/
theorem c2_determinism (img : Image) (imagePath : String)
    (layout : TemplateLayout) (t1 t2 : String) (p1 p2 : ℚ) :
    (scanImage img imagePath layout t1 p1).version =
      (scanImage img imagePath layout t2 p2).version ∧
    (scanImage img imagePath layout t1 p1).identification =
      (scanImage img imagePath layout t2 p2).identification ∧
    (scanImage img imagePath layout t1 p1).rectification =
      (scanImage img imagePath layout t2 p2).rectification ∧
    (scanImage img imagePath layout t1 p1).answers =
      (scanImage img imagePath layout t2 p2).answers ∧
    (scanImage img imagePath layout t1 p1).quality_metrics =
      (scanImage img imagePath layout t2 p2).quality_metrics ∧
    (scanImage img imagePath layout t1 p1).scan_metadata.image_source =
      (scanImage img imagePath layout t2 p2).scan_metadata.image_source ∧
    (scanImage img imagePath layout t1 p1).scan_metadata.scanner_version =
      (scanImage img imagePath layout t2 p2).scan_metadata.scanner_version ∧
    (scanImage img imagePath layout t1 p1).scan_metadata.scan_timestamp =
      t1 ++ "Z" ∧
    (scanImage img imagePath layout t1 p1).scan_metadata.processing_time_ms =
      pyRound p1 2 :=
  ⟨rfl, rfl, rfl, rfl, rfl, rfl, rfl, rfl, rfl⟩

/-- Counterexample to claim C2 as stated: two runs over the same image,
layout and seed-free inputs that differ only in the wall-clock reading
produce unequal scan results (the `scan_timestamp` field differs). -/
theorem c2_determinism_cex :
    scanImage dotImage "img.json" emptyLayout "2024-01-01T00:00:00" 0 ≠
      scanImage dotImage "img.json" emptyLayout "2024-01-01T00:00:01" 0 := by
  intro h
  have h2 := congrArg (fun r => r.scan_metadata.scan_timestamp) h
  exact absurd h2 (by decide)

lemma sq_nonneg2 (a : ℤ) : 0 ≤ sq a := mul_self_nonneg a

lemma sq_mono {a b : ℤ} (h0 : 0 ≤ a) (h : a ≤ b) : sq a ≤ sq b := by
  unfold sq
  exact mul_le_mul h h h0 (le_trans h0 h)

lemma drawCircleG_outside {g : Gen} {img : PixFun} {cx cy r : ℤ} {fl : Bool}
    {v : ℕ} {y x : ℤ} (h : ¬(sq (x - cx) + sq (y - cy) ≤ sq r)) :
    drawCircleG g img cx cy r fl v y x = img y x := by
  unfold drawCircleG
  exact if_neg (fun hc => h hc.2.1)

lemma drawCircleG_neg_radius {g : Gen} {img : PixFun} {cx cy r : ℤ} {fl : Bool}
    {v : ℕ} {y x : ℤ} (h : r < 0) :
    drawCircleG g img cx cy r fl v y x = img y x := by
  unfold drawCircleG
  exact if_neg (fun hc => absurd hc.1 (not_le.mpr h))

lemma drawField_outside {g : Gen} {CA : List (String × String)} {qid : String}
    {im : PixFun} {f : AnswerField} {y x : ℤ}
    (h : ¬(sq (x - fpx f) + sq (y - fpy f) ≤ sq (fpr f))) :
    drawField g CA qid im f y x = im y x := by
  simp only [fpx, fpy, fpr] at h
  unfold drawField
  by_cases ht : f.field_type = "circle"
  · rw [if_pos ht]
    by_cases hch : CA.lookup qid = some f.label
    · rw [if_pos hch]
      by_cases hr : 0 ≤ genMmToPixels (f.radius_mm.getD 3) - 1
      · rw [drawCircleG_outside
          (fun hc => h (le_trans hc (sq_mono hr (by omega))))]
        exact drawCircleG_outside h
      · rw [drawCircleG_neg_radius (by omega)]
        exact drawCircleG_outside h
    · rw [if_neg hch]
      exact drawCircleG_outside h
  · rw [if_neg ht]

lemma fieldsFold_outside (g : Gen) (CA : List (String × String)) :
    ∀ (ps : List (String × AnswerField)) (im : PixFun) (y x : ℤ),
      (∀ p ∈ ps, ¬(sq (x - fpx p.2) + sq (y - fpy p.2) ≤ sq (fpr p.2))) →
      ps.foldl (fieldStep g CA) im y x = im y x := by
  intro ps
  induction ps with
  | nil => intro im y x _; rfl
  | cons p ps ih =>
    intro im y x h
    rw [List.foldl_cons,
      ih _ y x (fun p' hp' => h p' (List.mem_cons_of_mem p hp'))]
    exact drawField_outside (h p (List.mem_cons_self p ps))

lemma drawMarks_outside (g : Gen) :
    ∀ (marks : List RegMark) (im : PixFun) (y x : ℤ),
      (∀ m ∈ marks, genMmToPixels m.size_mm < 0 ∨
        ¬(sq (x - genMmToPixels m.x_mm) + sq (y - genMmToPixels m.y_mm) ≤
          sq (genMmToPixels m.size_mm))) →
      drawMarks g marks im y x = im y x := by
  intro marks
  induction marks with
  | nil => intro im y x _; rfl
  | cons m marks ih =>
    intro im y x h
    have hstep : drawMarks g (m :: marks) im = drawMarks g marks
        (drawCircleG g im (genMmToPixels m.x_mm) (genMmToPixels m.y_mm)
          (genMmToPixels m.size_mm) true 0) := rfl
    rw [hstep, ih _ y x (fun m' hm' => h m' (List.mem_cons_of_mem m hm'))]
    rcases h m (List.mem_cons_self m marks) with hneg | hout
    · exact drawCircleG_neg_radius hneg
    · exact drawCircleG_outside hout

set_option maxHeartbeats 1000000 in
lemma point_outside_other {x y cx cy cx' cy' a b : ℤ} (ha : 0 ≤ a) (hb : 0 ≤ b)
    (hp : sq (x - cx) + sq (y - cy) ≤ sq a)
    (hsep : sq (cx - cx') + sq (cy - cy') > sq (a + b)) :
    ¬(sq (x - cx') + sq (y - cy') ≤ sq b) := by
  intro hq
  unfold sq at hp hsep hq
  have hB0 : 0 ≤ (x - cx')*(x - cx') + (y - cy')*(y - cy') := by
    nlinarith [mul_self_nonneg (x - cx'), mul_self_nonneg (y - cy')]
  have hAB : ((x - cx)*(x - cx) + (y - cy)*(y - cy)) *
      ((x - cx')*(x - cx') + (y - cy')*(y - cy')) ≤ (a*a) * (b*b) :=
    mul_le_mul hp hq hB0 (mul_self_nonneg a)
  have hCS : ((x - cx)*(x - cx') + (y - cy)*(y - cy')) *
      ((x - cx)*(x - cx') + (y - cy)*(y - cy')) ≤
      ((x - cx)*(x - cx) + (y - cy)*(y - cy)) *
        ((x - cx')*(x - cx') + (y - cy')*(y - cy')) := by
    nlinarith [mul_self_nonneg ((x - cx) * (y - cy') - (y - cy) * (x - cx'))]
  have ht2 : ((x - cx)*(x - cx') + (y - cy)*(y - cy')) *
      ((x - cx)*(x - cx') + (y - cy)*(y - cy')) ≤ (a*b)*(a*b) := by
    have he : (a*b)*(a*b) = (a*a)*(b*b) := by ring
    rw [he]
    exact le_trans hCS hAB
  have ht : -(a*b) ≤ (x - cx)*(x - cx') + (y - cy)*(y - cy') := by
    nlinarith [ht2, mul_nonneg ha hb,
      mul_self_nonneg ((x - cx)*(x - cx') + (y - cy)*(y - cy') + a*b)]
  nlinarith [hp, hq, hsep, ht]

lemma genFold_eq_pairs (g : Gen) (CA : List (String × String)) :
    ∀ (qs : List QuestionLayout) (im : PixFun),
      (∀ q ∈ qs, q.answer_fields.isSome = true) →
      qs.foldl (drawQuestion g CA) im =
        (qs.flatMap (fun q => (q.answer_fields.getD []).map
          (fun f => (q.question_id, f)))).foldl (fieldStep g CA) im := by
  intro qs
  induction qs with
  | nil => intro im _; rfl
  | cons q qs ih =>
    intro im h
    obtain ⟨fs, hfs⟩ := Option.isSome_iff_exists.mp (h q (List.mem_cons_self q qs))
    have h1 : drawQuestion g CA im q = fs.foldl (drawField g CA q.question_id) im := by
      unfold drawQuestion
      rw [hfs]
    have h2 : q.answer_fields.getD [] = fs := by rw [hfs]; rfl
    rw [List.foldl_cons, List.flatMap_cons, List.foldl_append,
      ih (drawQuestion g CA im q) (fun q' hq' => h q' (List.mem_cons_of_mem q hq'))]
    congr 1
    rw [h1, h2, List.foldl_map]
    rfl

lemma generateTestImage_pix (g : Gen) (layout : TemplateLayout)
    (CA : List (String × String))
    (H1 : ∀ q ∈ layout.questions, q.answer_fields.isSome = true) :
    (generateTestImage g layout CA).pix =
      (allFieldPairs layout).foldl (fieldStep g CA)
        (drawMarks g layout.registration_marks (fun _ _ => 255)) := by
  unfold generateTestImage allFieldPairs
  exact genFold_eq_pairs g CA layout.questions _ H1

lemma FieldsDisjoint_symm {a b : String × AnswerField} (h : FieldsDisjoint a b) :
    FieldsDisjoint b a := by
  unfold FieldsDisjoint at h ⊢
  unfold sq at h ⊢
  nlinarith [h]

lemma pairwise_decomp {l : List (String × AnswerField)} {p : String × AnswerField}
    (hP : List.Pairwise FieldsDisjoint l) (hp : p ∈ l) :
    ∃ s t, l = s ++ p :: t ∧ (∀ p' ∈ s, FieldsDisjoint p' p) ∧
      (∀ p' ∈ t, FieldsDisjoint p p') := by
  obtain ⟨s, t, rfl⟩ := List.append_of_mem hp
  rw [List.pairwise_append] at hP
  obtain ⟨-, h2, h3⟩ := hP
  rw [List.pairwise_cons] at h2
  exact ⟨s, t, rfl, fun p' hp' => h3 p' hp' p (List.mem_cons_self p t), h2.1⟩

lemma drawField_circle_chosen {g : Gen} {CA : List (String × String)}
    {qid : String} {im : PixFun} {f : AnswerField}
    (ht : f.field_type = "circle") (hch : CA.lookup qid = some f.label) :
    drawField g CA qid im f =
      drawCircleG g (drawCircleG g im (fpx f) (fpy f) (fpr f) false 0)
        (fpx f) (fpy f) (fpr f - 1) true 50 := by
  unfold drawField
  rw [if_pos ht, if_pos hch]
  rfl

lemma drawField_circle_unchosen {g : Gen} {CA : List (String × String)}
    {qid : String} {im : PixFun} {f : AnswerField}
    (ht : f.field_type = "circle") (hch : ¬(CA.lookup qid = some f.label)) :
    drawField g CA qid im f =
      drawCircleG g im (fpx f) (fpy f) (fpr f) false 0 := by
  unfold drawField
  rw [if_pos ht, if_neg hch]
  rfl

lemma drawCircleG_value_in {g : Gen} {img : PixFun} {cx cy r : ℤ} {fl : Bool}
    {v : ℕ} {y x : ℤ} (hr : 0 ≤ r)
    (hdisk : sq (x - cx) + sq (y - cy) ≤ sq r)
    (hb1 : 0 ≤ x) (hb2 : x < (g.width : ℤ))
    (hb3 : 0 ≤ y) (hb4 : y < (g.height : ℤ))
    (hring : fl = true ∨ sq (r - 2) ≤ sq (x - cx) + sq (y - cy)) :
    drawCircleG g img cx cy r fl v y x = v :=
  if_pos ⟨hr, hdisk, hb1, hb2, hb3, hb4, hring⟩

lemma drawCircleG_not_ring {g : Gen} {img : PixFun} {cx cy r : ℤ} {v : ℕ}
    {y x : ℤ} (h : ¬(sq (r - 2) ≤ sq (x - cx) + sq (y - cy))) :
    drawCircleG g img cx cy r false v y x = img y x := by
  unfold drawCircleG
  apply if_neg
  rintro ⟨-, -, -, -, -, -, hcase | hring⟩
  · cases hcase
  · exact h hring

lemma pairsFold_pix (g : Gen) (CA : List (String × String))
    (ps : List (String × AnswerField)) (marks : List RegMark)
    (Hgeom : ∀ p ∈ ps, fieldGeomOK g p.2)
    (Hdisj : List.Pairwise FieldsDisjoint ps)
    (Hmarks : ∀ m ∈ marks, ∀ p ∈ ps, MarkFieldDisjoint m p)
    {qid : String} {f : AnswerField} (hp : (qid, f) ∈ ps)
    {y x : ℤ} (hd : sq (x - fpx f) + sq (y - fpy f) ≤ sq (fpr f - 2)) :
    ps.foldl (fieldStep g CA) (drawMarks g marks (fun _ _ => 255)) y x =
      (if CA.lookup qid = some f.label then 50
       else if sq (x - fpx f) + sq (y - fpy f) = sq (fpr f - 2) then 0
       else 255) := by
  have hgeomf : fieldGeomOK g f := Hgeom (qid, f) hp
  obtain ⟨hcirc, hr3, hx1, hx2, hy1, hy2, -⟩ := hgeomf
  have hdr : sq (x - fpx f) + sq (y - fpy f) ≤ sq (fpr f) :=
    le_trans hd (sq_mono (by omega) (by omega))
  obtain ⟨⟨hbx1, hbx2⟩, ⟨hby1, hby2⟩⟩ := sq_add_sq_le_bounds hd (by omega)
  have hpx1 : 0 ≤ x := by omega
  have hpx2 : x < (g.width : ℤ) := by omega
  have hpy1 : 0 ≤ y := by omega
  have hpy2 : y < (g.height : ℤ) := by omega
  obtain ⟨s, t, hlt, hs, hts⟩ := pairwise_decomp Hdisj hp
  subst hlt
  have hframeT : ∀ p' ∈ t, ¬(sq (x - fpx p'.2) + sq (y - fpy p'.2) ≤ sq (fpr p'.2)) := by
    intro p' hp'
    have hg := Hgeom p' (List.mem_append_right s (List.mem_cons_of_mem _ hp'))
    have hb : (0:ℤ) ≤ fpr p'.2 := by
      have := hg.2.1
      omega
    have hsep0 : FieldsDisjoint (qid, f) p' := hts p' hp'
    unfold FieldsDisjoint at hsep0
    have hsep : sq (fpx f - fpx p'.2) + sq (fpy f - fpy p'.2) >
        sq (fpr f + fpr p'.2) := hsep0
    exact @point_outside_other x y (fpx f) (fpy f) (fpx p'.2) (fpy p'.2)
      (fpr f) (fpr p'.2) (by omega) hb hdr hsep
  have hframeS : ∀ p' ∈ s, ¬(sq (x - fpx p'.2) + sq (y - fpy p'.2) ≤ sq (fpr p'.2)) := by
    intro p' hp'
    have hg := Hgeom p' (List.mem_append_left _ hp')
    have hb : (0:ℤ) ≤ fpr p'.2 := by
      have := hg.2.1
      omega
    have hsep0 : FieldsDisjoint (qid, f) p' := FieldsDisjoint_symm (hs p' hp')
    unfold FieldsDisjoint at hsep0
    have hsep : sq (fpx f - fpx p'.2) + sq (fpy f - fpy p'.2) >
        sq (fpr f + fpr p'.2) := hsep0
    exact @point_outside_other x y (fpx f) (fpy f) (fpx p'.2) (fpy p'.2)
      (fpr f) (fpr p'.2) (by omega) hb hdr hsep
  rw [List.foldl_append, List.foldl_cons]
  rw [fieldsFold_outside g CA t _ y x hframeT]
  have hbase : s.foldl (fieldStep g CA) (drawMarks g marks (fun _ _ => 255)) y x = 255 := by
    rw [fieldsFold_outside g CA s _ y x hframeS]
    rw [drawMarks_outside g marks _ y x ?frameM]
    case frameM =>
      intro m hm
      by_cases hR : 0 ≤ genMmToPixels m.size_mm
      · exact Or.inr (point_outside_other (by omega) hR hdr
          (Hmarks m hm (qid, f) hp))
      · exact Or.inl (by omega)
  have hbeta : fieldStep g CA (s.foldl (fieldStep g CA)
      (drawMarks g marks (fun _ _ => 255))) (qid, f) =
      drawField g CA qid (s.foldl (fieldStep g CA)
        (drawMarks g marks (fun _ _ => 255))) f := rfl
  rw [hbeta]
  by_cases hch : CA.lookup qid = some f.label
  · rw [if_pos hch, drawField_circle_chosen hcirc hch]
    exact drawCircleG_value_in (by omega)
      (le_trans hd (sq_mono (by omega) (by omega)))
      hpx1 hpx2 hpy1 hpy2 (Or.inl rfl)
  · rw [if_neg hch, drawField_circle_unchosen hcirc hch]
    by_cases hdeq : sq (x - fpx f) + sq (y - fpy f) = sq (fpr f - 2)
    · rw [if_pos hdeq]
      exact drawCircleG_value_in (by omega) hdr hpx1 hpx2 hpy1 hpy2
        (Or.inr (le_of_eq hdeq.symm))
    · rw [if_neg hdeq, drawCircleG_not_ring (by omega), hbase]

lemma genImage_pix_on_field
    (g : Gen) (layout : TemplateLayout) (CA : List (String × String))
    (H1 : ∀ q ∈ layout.questions, q.answer_fields.isSome = true)
    (Hgeom : ∀ p ∈ allFieldPairs layout, fieldGeomOK g p.2)
    (Hdisj : List.Pairwise FieldsDisjoint (allFieldPairs layout))
    (Hmarks : ∀ m ∈ layout.registration_marks, ∀ p ∈ allFieldPairs layout,
      MarkFieldDisjoint m p)
    {qid : String} {f : AnswerField} (hp : (qid, f) ∈ allFieldPairs layout)
    {y x : ℤ} (hd : sq (x - fpx f) + sq (y - fpy f) ≤ sq (fpr f - 2)) :
    (generateTestImage g layout CA).pix y x =
      (if CA.lookup qid = some f.label then 50
       else if sq (x - fpx f) + sq (y - fpy f) = sq (fpr f - 2) then 0
       else 255) := by
  rw [generateTestImage_pix g layout CA H1]
  exact pairsFold_pix g CA (allFieldPairs layout) layout.registration_marks
    Hgeom Hdisj Hmarks hp hd


lemma bubbleSample_eq_diskOffsets {img : Image} {cx cy m : ℤ}
    (h2 : m ≤ cx) (h3 : cx + m < (img.width : ℤ))
    (h4 : m ≤ cy) (h5 : cy + m < (img.height : ℤ)) :
    bubbleSample img cx cy m = diskOffsets m := by
  unfold bubbleSample diskOffsets
  apply Finset.filter_congr
  intro d hd
  rw [Finset.mem_product, Finset.mem_Icc, Finset.mem_Icc] at hd
  obtain ⟨⟨a1, a2⟩, b1, b2⟩ := hd
  constructor
  · rintro ⟨hdisk, -⟩; exact hdisk
  · intro hdisk
    exact ⟨hdisk, by omega, by omega, by omega, by omega⟩

lemma mem_diskOffsets {m : ℤ} {d : ℤ × ℤ} (hm : 0 ≤ m) :
    d ∈ diskOffsets m ↔ sq d.2 + sq d.1 ≤ sq m := by
  unfold diskOffsets
  rw [Finset.mem_filter, Finset.mem_product, Finset.mem_Icc, Finset.mem_Icc]
  constructor
  · rintro ⟨-, h⟩; exact h
  · intro h
    obtain ⟨⟨a1, a2⟩, ⟨b1, b2⟩⟩ := sq_add_sq_le_bounds h hm
    exact ⟨⟨⟨by omega, by omega⟩, by omega, by omega⟩, h⟩

lemma diskOffsets_card_ne_zero {m : ℤ} (hm : 0 ≤ m) :
    (diskOffsets m).card ≠ 0 := by
  have hmem : ((0 : ℤ), (0 : ℤ)) ∈ diskOffsets m := by
    rw [mem_diskOffsets hm]
    simp only [sq]
    nlinarith
  intro hc
  rw [Finset.card_eq_zero] at hc
  rw [hc] at hmem
  exact absurd hmem (Finset.not_mem_empty _)

lemma fieldDetect_generated_chosen
    (g : Gen) (layout : TemplateLayout) (CA : List (String × String))
    (H1 : ∀ q ∈ layout.questions, q.answer_fields.isSome = true)
    (Hgeom : ∀ p ∈ allFieldPairs layout, fieldGeomOK g p.2)
    (Hdisj : List.Pairwise FieldsDisjoint (allFieldPairs layout))
    (Hmarks : ∀ m ∈ layout.registration_marks, ∀ p ∈ allFieldPairs layout,
      MarkFieldDisjoint m p)
    {qid : String} {f : AnswerField} (hp : (qid, f) ∈ allFieldPairs layout)
    (hch : CA.lookup qid = some f.label) :
    fieldDetect (generateTestImage g layout CA) 300 f = (true, 99/100) := by
  have hgeomf : fieldGeomOK g f := Hgeom (qid, f) hp
  obtain ⟨hcirc, hr3, hx1, hx2, hy1, hy2, hring⟩ := hgeomf
  have hW : (generateTestImage g layout CA).width = g.width := rfl
  have hH : (generateTestImage g layout CA).height = g.height := rfl
  have hfx : mmToPixels f.x_mm 300 = fpx f := rfl
  have hfy : mmToPixels f.y_mm 300 = fpy f := rfl
  have hfr : mmToPixels (f.radius_mm.getD 3) 300 = fpr f := rfl
  have hmax : max 1 (fpr f - 2) = fpr f - 2 := by omega
  have hbs : bubbleSample (generateTestImage g layout CA) (fpx f) (fpy f)
      (fpr f - 2) = diskOffsets (fpr f - 2) := by
    exact bubbleSample_eq_diskOffsets (by omega) (by rw [hW]; omega)
      (by omega) (by rw [hH]; omega)
  have hpix : ∀ d ∈ diskOffsets (fpr f - 2),
      (generateTestImage g layout CA).pix (fpy f + d.1) (fpx f + d.2) = 50 := by
    intro d hd
    rw [mem_diskOffsets (by omega)] at hd
    have e1 : fpx f + d.2 - fpx f = d.2 := by ring
    have e2 : fpy f + d.1 - fpy f = d.1 := by ring
    have hdd : sq (fpx f + d.2 - fpx f) + sq (fpy f + d.1 - fpy f) ≤
        sq (fpr f - 2) := by
      rw [e1, e2]; exact hd
    rw [genImage_pix_on_field g layout CA H1 Hgeom Hdisj Hmarks hp hdd]
    rw [if_pos hch]
  have hfrac : bubbleFillFrac (generateTestImage g layout CA) (fpx f) (fpy f)
      (fpr f - 2) = 1 := by
    unfold bubbleFillFrac
    rw [hbs]
    have hall : ∀ d ∈ diskOffsets (fpr f - 2),
        (generateTestImage g layout CA).pix (fpy f + d.1) (fpx f + d.2) < 128 := by
      intro d hd
      rw [hpix d hd]
      norm_num
    rw [Finset.filter_true_of_mem hall]
    exact div_self (Nat.cast_ne_zero.mpr (diskOffsets_card_ne_zero (by omega)))
  unfold fieldDetect detectBubbleFill
  rw [hfx, hfy, hfr, hW, hH, hmax, hbs]
  have hguard : ¬(fpx f < 0 ∨ fpy f < 0 ∨ (g.width : ℤ) ≤ fpx f ∨
      (g.height : ℤ) ≤ fpy f) := by omega
  rw [if_neg hguard, if_neg (diskOffsets_card_ne_zero
    (show (0:ℤ) ≤ fpr f - 2 by omega))]
  rw [if_pos (show (3/10 : ℚ) ≤ bubbleFillFrac (generateTestImage g layout CA)
    (fpx f) (fpy f) (fpr f - 2) by rw [hfrac]; norm_num)]
  rw [hfrac]
  norm_num [min_def]

lemma fieldDetect_generated_unchosen
    (g : Gen) (layout : TemplateLayout) (CA : List (String × String))
    (H1 : ∀ q ∈ layout.questions, q.answer_fields.isSome = true)
    (Hgeom : ∀ p ∈ allFieldPairs layout, fieldGeomOK g p.2)
    (Hdisj : List.Pairwise FieldsDisjoint (allFieldPairs layout))
    (Hmarks : ∀ m ∈ layout.registration_marks, ∀ p ∈ allFieldPairs layout,
      MarkFieldDisjoint m p)
    {qid : String} {f : AnswerField} (hp : (qid, f) ∈ allFieldPairs layout)
    (hch : ¬(CA.lookup qid = some f.label)) :
    (fieldDetect (generateTestImage g layout CA) 300 f).1 = false := by
  have hgeomf : fieldGeomOK g f := Hgeom (qid, f) hp
  obtain ⟨hcirc, hr3, hx1, hx2, hy1, hy2, hring⟩ := hgeomf
  have hW : (generateTestImage g layout CA).width = g.width := rfl
  have hH : (generateTestImage g layout CA).height = g.height := rfl
  have hfx : mmToPixels f.x_mm 300 = fpx f := rfl
  have hfy : mmToPixels f.y_mm 300 = fpy f := rfl
  have hfr : mmToPixels (f.radius_mm.getD 3) 300 = fpr f := rfl
  have hmax : max 1 (fpr f - 2) = fpr f - 2 := by omega
  have hbs : bubbleSample (generateTestImage g layout CA) (fpx f) (fpy f)
      (fpr f - 2) = diskOffsets (fpr f - 2) := by
    exact bubbleSample_eq_diskOffsets (by omega) (by rw [hW]; omega)
      (by omega) (by rw [hH]; omega)
  have hdark : (diskOffsets (fpr f - 2)).filter
      (fun d => (generateTestImage g layout CA).pix (fpy f + d.1)
        (fpx f + d.2) < 128) =
      (diskOffsets (fpr f - 2)).filter
        (fun d => sq d.2 + sq d.1 = sq (fpr f - 2)) := by
    apply Finset.filter_congr
    intro d hd
    rw [mem_diskOffsets (by omega)] at hd
    have e1 : fpx f + d.2 - fpx f = d.2 := by ring
    have e2 : fpy f + d.1 - fpy f = d.1 := by ring
    have hdd : sq (fpx f + d.2 - fpx f) + sq (fpy f + d.1 - fpy f) ≤
        sq (fpr f - 2) := by
      rw [e1, e2]; exact hd
    rw [genImage_pix_on_field g layout CA H1 Hgeom Hdisj Hmarks hp hdd]
    rw [if_neg hch, e1, e2]
    by_cases hr : sq d.2 + sq d.1 = sq (fpr f - 2)
    · rw [if_pos hr]
      exact iff_of_true (by norm_num) hr
    · rw [if_neg hr]
      exact iff_of_false (by norm_num) hr
  have hT : 0 < (diskOffsets (fpr f - 2)).card :=
    Nat.pos_of_ne_zero (diskOffsets_card_ne_zero (by omega))
  have hfrac : bubbleFillFrac (generateTestImage g layout CA) (fpx f) (fpy f)
      (fpr f - 2) < 3/10 := by
    unfold bubbleFillFrac
    rw [hbs, hdark]
    rw [div_lt_iff (by exact_mod_cast hT)]
    unfold ringOK at hring
    have h10 : (10:ℚ) * (((diskOffsets (fpr f - 2)).filter
        (fun d => sq d.2 + sq d.1 = sq (fpr f - 2))).card : ℚ) <
        3 * ((diskOffsets (fpr f - 2)).card : ℚ) := by
      exact_mod_cast hring
    linarith
  unfold fieldDetect detectBubbleFill
  rw [hfx, hfy, hfr, hW, hH, hmax, hbs]
  have hguard : ¬(fpx f < 0 ∨ fpy f < 0 ∨ (g.width : ℤ) ≤ fpx f ∨
      (g.height : ℤ) ≤ fpy f) := by omega
  rw [if_neg hguard, if_neg (diskOffsets_card_ne_zero
    (show (0:ℤ) ≤ fpr f - 2 by omega))]
  rw [if_neg (not_le.mpr hfrac)]

lemma mem_allFieldPairs {layout : TemplateLayout} {q : QuestionLayout}
    (hq : q ∈ layout.questions) {f : AnswerField}
    (hf : f ∈ q.answer_fields.getD []) :
    (q.question_id, f) ∈ allFieldPairs layout := by
  unfold allFieldPairs
  rw [List.mem_flatMap]
  exact ⟨q, hq, List.mem_map.mpr ⟨f, hf, rfl⟩⟩

lemma filledFields_nil {img : Image} {dpi : ℕ} :
    ∀ (l : List AnswerField), (∀ f ∈ l, (fieldDetect img dpi f).1 = false) →
      filledFields img dpi l = [] := by
  intro l
  induction l with
  | nil => intro _; rfl
  | cons f fs ih =>
    intro h
    rw [filledFields_cons_neg fs (by simp [h f (List.mem_cons_self f fs)])]
    exact ih (fun f' hf' => h f' (List.mem_cons_of_mem f hf'))

lemma filledFields_append (img : Image) (dpi : ℕ) (l1 l2 : List AnswerField) :
    filledFields img dpi (l1 ++ l2) =
      filledFields img dpi l1 ++ filledFields img dpi l2 := by
  unfold filledFields
  exact List.filterMap_append l1 l2 _

lemma filledFields_single {img : Image} {dpi : ℕ} {l1 l2 : List AnswerField}
    {fc : AnswerField}
    (h1 : ∀ f ∈ l1, (fieldDetect img dpi f).1 = false)
    (h2 : ∀ f ∈ l2, (fieldDetect img dpi f).1 = false)
    (hc : (fieldDetect img dpi fc).1 = true) :
    filledFields img dpi (l1 ++ fc :: l2) = [(fc.label, 99/100)] := by
  rw [filledFields_append, filledFields_nil l1 h1,
    filledFields_cons_pos l2 hc, filledFields_nil l2 h2, fieldDetect_conf hc]
  rfl

lemma extractChoice_single {img : Image} {dpi : ℕ} {fields : List AnswerField}
    {c : String} (h : filledFields img dpi fields = [(c, 99/100)]) :
    extractChoice img dpi fields = (some c, 99/100, []) := by
  unfold extractChoice
  rw [choiceFold_eq, h]
  simp [pyRound_conf]

lemma nodup_split_labels {l1 l2 : List AnswerField} {fc : AnswerField}
    (hnd : ((l1 ++ fc :: l2).map AnswerField.label).Nodup) :
    (∀ f ∈ l1, f.label ≠ fc.label) ∧ (∀ f ∈ l2, f.label ≠ fc.label) := by
  rw [List.map_append, List.map_cons, List.nodup_append] at hnd
  obtain ⟨-, h2, h3⟩ := hnd
  rw [List.nodup_cons] at h2
  constructor
  · intro f hf heq
    exact h3 (List.mem_map.mpr ⟨f, hf, rfl⟩)
      (by rw [heq]; exact List.mem_cons_self _ _)
  · intro f hf heq
    exact h2.1 (by rw [← heq]; exact List.mem_map.mpr ⟨f, hf, rfl⟩)

lemma answerRecordFor_generated
    (g : Gen) (layout : TemplateLayout) (CA : List (String × String))
    (H1 : ∀ q ∈ layout.questions, q.answer_fields.isSome = true)
    (Hgeom : ∀ p ∈ allFieldPairs layout, fieldGeomOK g p.2)
    (Hdisj : List.Pairwise FieldsDisjoint (allFieldPairs layout))
    (Hmarks : ∀ m ∈ layout.registration_marks, ∀ p ∈ allFieldPairs layout,
      MarkFieldDisjoint m p)
    {q : QuestionLayout} (hq : q ∈ layout.questions)
    (hty : q.qtype = "multiple_choice" ∨ q.qtype = "true_false")
    (hnd : ((q.answer_fields.getD []).map AnswerField.label).Nodup)
    (hex : ∃ fc ∈ q.answer_fields.getD [],
      CA.lookup q.question_id = some fc.label) :
    answerRecordFor (generateTestImage g layout CA) 300 q =
      some (expectedRecord CA q) := by
  obtain ⟨fc, hfc, hlook⟩ := hex
  obtain ⟨l1, l2, hsplit⟩ := List.append_of_mem hfc
  have hsome : q.answer_fields.isSome = true := H1 q hq
  rw [hsplit] at hnd
  obtain ⟨hlab1, hlab2⟩ := nodup_split_labels hnd
  have hdetc : fieldDetect (generateTestImage g layout CA) 300 fc =
      (true, 99/100) :=
    fieldDetect_generated_chosen g layout CA H1 Hgeom Hdisj Hmarks
      (mem_allFieldPairs hq hfc) hlook
  have hdet1 : ∀ f ∈ l1,
      (fieldDetect (generateTestImage g layout CA) 300 f).1 = false := by
    intro f hf
    apply fieldDetect_generated_unchosen g layout CA H1 Hgeom Hdisj Hmarks
      (mem_allFieldPairs hq (by rw [hsplit]; exact List.mem_append_left _ hf))
    intro hcon
    rw [hlook] at hcon
    injection hcon with hlb
    exact hlab1 f hf hlb.symm
  have hdet2 : ∀ f ∈ l2,
      (fieldDetect (generateTestImage g layout CA) 300 f).1 = false := by
    intro f hf
    apply fieldDetect_generated_unchosen g layout CA H1 Hgeom Hdisj Hmarks
      (mem_allFieldPairs hq (by
        rw [hsplit]
        exact List.mem_append_right l1 (List.mem_cons_of_mem fc hf)))
    intro hcon
    rw [hlook] at hcon
    injection hcon with hlb
    exact hlab2 f hf hlb.symm
  have hfill : filledFields (generateTestImage g layout CA) 300
      (q.answer_fields.getD []) = [(fc.label, 99/100)] := by
    rw [hsplit]
    exact filledFields_single hdet1 hdet2 (by rw [hdetc])
  unfold answerRecordFor
  rw [if_pos ⟨hty, hsome⟩, extractChoice_single hfill]
  unfold expectedRecord
  rw [hlook]

lemma filterMap_eq_map_of_some {α β : Type} (F : α → Option β) (G : α → β) :
    ∀ (l : List α), (∀ a ∈ l, F a = some (G a)) → l.filterMap F = l.map G := by
  intro l
  induction l with
  | nil => intro _; rfl
  | cons a l ih =>
    intro h
    rw [List.map_cons,
      List.filterMap_cons_some (h a (List.mem_cons_self a l)),
      ih (fun a' ha' => h a' (List.mem_cons_of_mem a ha'))]

/-- Claim C1 -- Amended round trip: at 300 dpi, for a layout of choice-type
questions whose bubble circles are geometrically sane (radius at least 3
pixels, inside the canvas with a radius margin, ring fraction below the
fill threshold), pairwise separated, clear of the registration marks, and
whose correct-answer map picks exactly one field label per question,
generating the image with every answer correct and extracting with the
same layout returns exactly one record per question with
`extracted_answer` equal to the correct answer and confidence
`0.99 ≥ 0.85`. -/
theorem c1_round_trip
    (g : Gen) (layout : TemplateLayout) (CA : List (String × String))
    (H0 : layout.page_info.dpi = 300)
    (H1 : ∀ q ∈ layout.questions,
      ((q.qtype = "multiple_choice" ∨ q.qtype = "true_false") ∧
        q.answer_fields.isSome = true))
    (Hgeom : ∀ p ∈ allFieldPairs layout, fieldGeomOK g p.2)
    (Hdisj : List.Pairwise FieldsDisjoint (allFieldPairs layout))
    (Hmarks : ∀ m ∈ layout.registration_marks, ∀ p ∈ allFieldPairs layout,
      MarkFieldDisjoint m p)
    (Hans : ∀ q ∈ layout.questions,
      ((q.answer_fields.getD []).map AnswerField.label).Nodup ∧
      ∃ fc ∈ q.answer_fields.getD [],
        CA.lookup q.question_id = some fc.label) :
    (extractAnswers (generateTestImage g layout CA) layout).1 =
      layout.questions.map (expectedRecord CA) ∧
    ∀ r ∈ (extractAnswers (generateTestImage g layout CA) layout).1,
      r.extracted_answer = CA.lookup r.question_id ∧
        (85/100 : ℚ) ≤ r.confidence := by
  have hH1 : ∀ q ∈ layout.questions, q.answer_fields.isSome = true :=
    fun q hq => (H1 q hq).2
  have hmain : (extractAnswers (generateTestImage g layout CA) layout).1 =
      layout.questions.map (expectedRecord CA) := by
    show layout.questions.filterMap
      (answerRecordFor (generateTestImage g layout CA)
        layout.page_info.dpi) = _
    rw [H0]
    apply filterMap_eq_map_of_some
    intro q hq
    exact answerRecordFor_generated g layout CA hH1 Hgeom Hdisj Hmarks hq
      (H1 q hq).1 (Hans q hq).1 (Hans q hq).2
  refine ⟨hmain, ?_⟩
  intro r hr
  rw [hmain] at hr
  obtain ⟨q, hq, rfl⟩ := List.mem_map.mp hr
  exact ⟨rfl, by show (85/100 : ℚ) ≤ 99/100; norm_num⟩

/-- Witness for claim C1: the 40x40 canvas with one two-bubble question
whose correct answer "A" is the first field; the round trip returns the
single expected record. -/
theorem c1_round_trip_witness :
    (extractAnswers (generateTestImage c1gen c1layout c1answers) c1layout).1 =
      c1layout.questions.map (expectedRecord c1answers) ∧
    ∀ r ∈ (extractAnswers (generateTestImage c1gen c1layout c1answers)
        c1layout).1,
      r.extracted_answer = c1answers.lookup r.question_id ∧
        (85/100 : ℚ) ≤ r.confidence := by
  have hfxA : fpx witField = 11 := by
    norm_num [fpx, genMmToPixels, pytrunc, witField]
  have hfyA : fpy witField = 11 := by
    norm_num [fpy, genMmToPixels, pytrunc, witField]
  have hfrA : fpr witField = 5 := by
    norm_num [fpr, genMmToPixels, pytrunc, witField]
  have hfxB : fpx c1fieldB = 29 := by
    norm_num [fpx, genMmToPixels, pytrunc, c1fieldB]
  have hfyB : fpy c1fieldB = 11 := by
    norm_num [fpy, genMmToPixels, pytrunc, c1fieldB]
  have hfrB : fpr c1fieldB = 5 := by
    norm_num [fpr, genMmToPixels, pytrunc, c1fieldB]
  have hring5 : ringOK 5 := by decide
  have hgeomA : fieldGeomOK c1gen witField := by
    refine ⟨rfl, ?_, ?_, ?_, ?_, ?_, ?_⟩
    · rw [hfrA]; norm_num
    · rw [hfrA, hfxA]; norm_num
    · rw [hfrA, hfxA]; norm_num [c1gen]
    · rw [hfrA, hfyA]; norm_num
    · rw [hfrA, hfyA]; norm_num [c1gen]
    · rw [hfrA]; exact hring5
  have hgeomB : fieldGeomOK c1gen c1fieldB := by
    refine ⟨rfl, ?_, ?_, ?_, ?_, ?_, ?_⟩
    · rw [hfrB]; norm_num
    · rw [hfrB, hfxB]; norm_num
    · rw [hfrB, hfxB]; norm_num [c1gen]
    · rw [hfrB, hfyB]; norm_num
    · rw [hfrB, hfyB]; norm_num [c1gen]
    · rw [hfrB]; exact hring5
  have hpairs : allFieldPairs c1layout = [("q1", witField), ("q1", c1fieldB)] :=
    rfl
  have hgeom : ∀ p ∈ allFieldPairs c1layout, fieldGeomOK c1gen p.2 := by
    intro p hp
    rw [hpairs, List.mem_cons, List.mem_cons] at hp
    rcases hp with rfl | rfl | hp
    · exact hgeomA
    · exact hgeomB
    · cases hp
  have hdisj : List.Pairwise FieldsDisjoint (allFieldPairs c1layout) := by
    rw [hpairs, List.pairwise_cons, List.pairwise_cons]
    refine ⟨?_, fun b hb => absurd hb (List.not_mem_nil b), List.Pairwise.nil⟩
    intro b hb
    rw [List.mem_cons] at hb
    rcases hb with rfl | hb
    · show sq (fpx witField - fpx c1fieldB) + sq (fpy witField - fpy c1fieldB) >
        sq (fpr witField + fpr c1fieldB)
      rw [hfxA, hfxB, hfyA, hfyB, hfrA, hfrB]
      norm_num [sq]
    · cases hb
  exact c1_round_trip c1gen c1layout c1answers rfl (by decide) hgeom hdisj
    (fun m hm => absurd hm (List.not_mem_nil m)) (by decide)

/-- Counterexample to claim C1 as stated: a layout whose only bubble sits
at `x_mm = 100` (pixel 1181), outside the 40-pixel-wide canvas, so the
scanner's bounds guard rejects it and the extracted answer is `none`, not
the correct answer "A". -/
theorem c1_round_trip_cex :
    ¬(∀ r ∈ (extractAnswers (generateTestImage c1gen c1cexLayout c1answers)
        c1cexLayout).1,
      r.extracted_answer = c1answers.lookup r.question_id ∧
        (85/100 : ℚ) ≤ r.confidence) := by
  intro hall
  have hfx : mmToPixels 100 300 = 1181 := by norm_num [mmToPixels, pytrunc]
  have hdet : fieldDetect (generateTestImage c1gen c1cexLayout c1answers) 300
      ⟨"A", 100, 1, some (1/2), "circle"⟩ = (false, 0) := by
    unfold fieldDetect detectBubbleFill
    rw [if_pos (Or.inr (Or.inr (Or.inl (by
      show ((40:ℕ):ℤ) ≤ mmToPixels 100 300
      rw [hfx]
      norm_num))))]
  have hfold : choiceFold (generateTestImage c1gen c1cexLayout c1answers) 300
      [⟨"A", 100, 1, some (1/2), "circle"⟩] = (none, 0, []) := by
    unfold choiceFold
    rw [List.foldl_cons, List.foldl_nil]
    simp only [choiceStep]
    rw [hdet]
    norm_num
  have hchoice : extractChoice (generateTestImage c1gen c1cexLayout c1answers)
      300 [⟨"A", 100, 1, some (1/2), "circle"⟩] =
      (none, 0, ["no_bubble_filled"]) := by
    unfold extractChoice
    rw [hfold]
    simp [pyRound_zero]
  have hrec : answerRecordFor (generateTestImage c1gen c1cexLayout c1answers)
      300 ⟨"q1", "multiple_choice", some 1,
        some [⟨"A", 100, 1, some (1/2), "circle"⟩], none⟩ =
      some ⟨"q1", 1, "multiple_choice", none, 0, "bubble_detection",
        ["no_bubble_filled"]⟩ := by
    unfold answerRecordFor
    rw [if_pos ⟨Or.inl rfl, rfl⟩]
    have hfields : (QuestionLayout.answer_fields ⟨"q1", "multiple_choice",
        some 1, some [⟨"A", 100, 1, some (1/2), "circle"⟩], none⟩).getD [] =
        [⟨"A", 100, 1, some (1/2), "circle"⟩] := rfl
    rw [hfields, hchoice]
    rfl
  have hlist : (extractAnswers (generateTestImage c1gen c1cexLayout c1answers)
      c1cexLayout).1 =
      [⟨"q1", 1, "multiple_choice", none, 0, "bubble_detection",
        ["no_bubble_filled"]⟩] := by
    show List.filterMap
      (answerRecordFor (generateTestImage c1gen c1cexLayout c1answers) 300)
      [⟨"q1", "multiple_choice", some 1,
        some [⟨"A", 100, 1, some (1/2), "circle"⟩], none⟩] = _
    rw [List.filterMap_cons_some hrec, List.filterMap_nil]
  have h := hall _ (by rw [hlist]; exact List.mem_cons_self _ _)
  obtain ⟨hextr, -⟩ := h
  exact absurd hextr (by decide)

end TurboTests
